import Mathlib

/-!
Verification development for the n-bench profile manager
(`src/scripts/profile-manager.py`).

The Python source is shallowly embedded: every pure function of the script
is translated into an executable Lean definition over explicit data, and
the effectful boundaries (filesystem probes, subprocesses, HTTP) become
explicit inputs or oracle parameters.  Python `dict`s are modelled as
insertion-ordered association lists with unique keys, `str` values as
Lean `String` (ASCII semantics for `lower`/`strip`/word classes, which is
what every call site in the script feeds them), and JSON-shaped data as
the inductive `JValue`.
-/

set_option maxHeartbeats 1600000

namespace ProfileManager

/-- ASCII model of Python `str.lower()`. -/
def pyLower (s : String) : String := ⟨s.data.map Char.toLower⟩

/-- Python whitespace class (`\s` / `str.strip()` default), ASCII part. -/
def isPyWs (c : Char) : Bool :=
  c = ' ' || c = '\t' || c = '\n' || c = '\x0d' || c = '\x0b' || c = '\x0c'

/-- ASCII model of Python `str.strip()` (no argument). -/
def pyStrip (s : String) : String :=
  ⟨((s.data.dropWhile isPyWs).reverse.dropWhile isPyWs).reverse⟩

/-- `str.strip("-")`: remove leading and trailing `-` characters. -/
def stripDashes (s : String) : String :=
  ⟨((s.data.dropWhile (· = '-')).reverse.dropWhile (· = '-')).reverse⟩

/-- Characters kept by `slugify`'s character class `[a-z0-9._-]`. -/
def slugAllowed (c : Char) : Bool :=
  ('a' ≤ c && c ≤ 'z') || ('0' ≤ c && c ≤ '9') || c = '.' || c = '_' || c = '-'

mutual
/-- `re.sub(r"[^a-z0-9._-]+", "-", ·)`: each maximal run of disallowed
characters becomes a single `-` (`slugSkip` consumes the rest of a
disallowed run). -/
def slugReplace : List Char → List Char
  | [] => []
  | c :: cs => if slugAllowed c then c :: slugReplace cs else '-' :: slugSkip cs

def slugSkip : List Char → List Char
  | [] => []
  | c :: cs => if slugAllowed c then c :: slugReplace cs else slugSkip cs
end

/-- `slugify` from the script: lowercase, collapse disallowed runs to `-`,
strip surrounding dashes. -/
def slugify (value : String) : String :=
  stripDashes ⟨slugReplace (pyLower value).data⟩

/-- `item_id(category, name, fingerprint="")`: `category:slug(name)`, with a
`:fingerprint[:8]` suffix for non-empty skill fingerprints. -/
def item_id (category name : String) (fingerprint : String := "") : String :=
  let base := category ++ ":" ++ slugify name
  if category = "skill" ∧ fingerprint ≠ "" then
    base ++ ":" ++ ⟨fingerprint.data.take 8⟩
  else base

/-- The category component of an item id (characters before the first
colon). -/
def idCat (s : String) : List Char := s.data.takeWhile (fun c => ¬ c = ':')

/-- The slug component of an item id (between the first and, if any, the
second colon). -/
def idSlug (s : String) : List Char :=
  ((s.data.dropWhile (fun c => ¬ c = ':')).drop 1).takeWhile (fun c => ¬ c = ':')

/-- The canonical OS identifiers (`ALL_OSES` in the script). -/
def ALL_OSES : List String := ["macos", "linux", "windows"]

/-- Fallback of `normalize_os`: `platform.system().lower()` mapped to a
canonical identifier.  `systemName` is the raw `platform.system()` value of
the machine running the program. -/
def hostFallback (systemName : String) : String :=
  let s := pyLower systemName
  if s = "darwin" then "macos"
  else if s = "windows" then "windows"
  else "linux"

/-- `normalize_os(raw)`.  `raw = none` models Python `None`; the host's
`platform.system()` result is passed explicitly as `systemName`. -/
def normalize_os (raw : Option String) (systemName : String) : String :=
  let value := pyLower (pyStrip (raw.getD ""))
  if value ∈ (["darwin", "mac", "macos", "osx"] : List String) then "macos"
  else if value = "linux" then "linux"
  else if value ∈ (["windows", "win32", "cygwin", "msys"] : List String) then "windows"
  else hostFallback systemName

/-- The strings `normalize_os` recognizes without consulting the host OS. -/
def recognizedOsAliases : List String :=
  ["darwin", "mac", "macos", "osx", "linux", "windows", "win32", "cygwin", "msys"]

/-! ### Import planner (`plan_import_actions`) -/

/-- One (dict-shaped) item of a foreign snapshot, restricted to the keys
`plan_import_actions` reads.  `none` models a missing key (or a value of the
wrong shape, for which the code substitutes the same default):
`priority = none` stands for `item.get("priority", "optional")` defaulting,
`os_support = none` for a missing/non-list `os_support` (code falls back to
`ALL_OSES`), `install_type = none` for `install.get("type", "manual")`
defaulting, and `manual_only` is `bool(item.get("manual_only"))`. -/
structure PlanItem where
  name : String := ""
  category : String := ""
  priority : Option String := none
  os_support : Option (List String) := none
  manual_only : Bool := false
  install_type : Option String := none
deriving Repr, DecidableEq

/-- An item annotated with the `action` / `reason` keys the planner adds. -/
structure PlannedItem where
  item : PlanItem
  action : String
  reason : String
deriving Repr, DecidableEq

/-- The six dispositions of the import planner. -/
inductive BucketTag where
  | unsupported
  | alreadyInstalled
  | manualRequired
  | manualOptional
  | promptRequired
  | promptOptional
deriving Repr, DecidableEq

/-- `installed_names(category)` over the local installed-index
(association list of category to list of names): missing category gives the
empty set, names are lower-cased.  Sets are modelled as lists used only
through membership. -/
def installedNames (idx : List (String × List String)) (category : String) :
    List String :=
  ((idx.lookup category).getD []).map pyLower

/-- The categories for which `plan_import_actions` precomputes installed
name sets; any other category looks up as the empty set. -/
def plannerCategories : List String :=
  ["mcp", "cli-tool", "application", "plugin", "skill",
   "workflow-pattern", "model-preference"]

/-- The per-item classification loop body of `plan_import_actions`,
returning the bucket the item lands in together with the annotated copy.
`systemName` is the host `platform.system()` consulted by `normalize_os`
when an `os_support` entry is unrecognized. -/
def planStep (idx : List (String × List String)) (current_os systemName : String)
    (it : PlanItem) : BucketTag × PlannedItem :=
  let category := pyLower (pyStrip it.category)
  let name := pyStrip it.name
  let priority := pyLower (pyStrip (it.priority.getD "optional"))
  let is_required := priority = "required"
  let os_support := it.os_support.getD ALL_OSES
  let os_support_norm := os_support.map (fun v => normalize_os (some v) systemName)
  if current_os ∉ os_support_norm then
    (.unsupported, ⟨it, "unsupported_os", "Not supported on " ++ current_os⟩)
  else if pyLower name ∈
      (if category ∈ plannerCategories then installedNames idx category else []) then
    (.alreadyInstalled, ⟨it, "skip_already_installed", "Already installed"⟩)
  else
    let install_type := pyLower (it.install_type.getD "manual")
    let manual_only := it.manual_only || install_type = "manual"
      || category ∈ (["application", "workflow-pattern", "model-preference"] : List String)
    if manual_only then
      if is_required then (.manualRequired, ⟨it, "manual_setup", "Manual setup required"⟩)
      else (.manualOptional, ⟨it, "manual_setup", "Manual setup required"⟩)
    else
      if is_required then (.promptRequired, ⟨it, "prompt_install", "Ready to install"⟩)
      else (.promptOptional, ⟨it, "prompt_install", "Ready to install"⟩)

/-- The record `plan_import_actions` returns (summary counts inlined). -/
structure ImportPlan where
  current_os : String
  total_items : Nat
  prompt_required : List PlannedItem
  prompt_optional : List PlannedItem
  manual_required : List PlannedItem
  manual_optional : List PlannedItem
  already_installed : List PlannedItem
  unsupported : List PlannedItem
  ordered_candidates : List PlannedItem
deriving Repr, DecidableEq

/-- Bucket list of a plan selected by tag. -/
def ImportPlan.bucket (plan : ImportPlan) : BucketTag → List PlannedItem
  | .unsupported => plan.unsupported
  | .alreadyInstalled => plan.already_installed
  | .manualRequired => plan.manual_required
  | .manualOptional => plan.manual_optional
  | .promptRequired => plan.prompt_required
  | .promptOptional => plan.prompt_optional

/-- `plan_import_actions(profile, local, current_os)`: classify the items of
a foreign snapshot against the local installed-index and OS.  The per-item
loop appends to six bucket lists in input order; `ordered_candidates` is the
fixed concatenation of the four actionable buckets.  Items that are not
JSON objects are skipped by the code and are not representable here; all
`PlanItem`s model dict items. -/
def plan_import_actions (items : List PlanItem)
    (idx : List (String × List String)) (current_os systemName : String) :
    ImportPlan :=
  let tagged := items.map (planStep idx current_os systemName)
  let bucketList := fun (b : BucketTag) =>
    (tagged.filter (fun p => p.1 = b)).map Prod.snd
  let pr := bucketList .promptRequired
  let po := bucketList .promptOptional
  let mr := bucketList .manualRequired
  let mo := bucketList .manualOptional
  { current_os := current_os
    total_items := items.length
    prompt_required := pr
    prompt_optional := po
    manual_required := mr
    manual_optional := mo
    already_installed := bucketList .alreadyInstalled
    unsupported := bucketList .unsupported
    ordered_candidates := pr ++ po ++ mr ++ mo }

/-- Spec-side classifier (modelled from the spec's §4.5 wording, for the
refinement half of the partition claim): apply, in this fixed order with
first match winning — unsupported OS, already installed, manual setup split
by priority, prompt split by priority.  It consults only the item, the
local OS and the installed-index. -/
def specClassify (it : PlanItem) (current_os : String)
    (idx : List (String × List String)) : BucketTag :=
  if current_os ∉ it.os_support.getD ALL_OSES then .unsupported
  else if pyLower it.name ∈ installedNames idx it.category then .alreadyInstalled
  else if it.manual_only || it.install_type.getD "manual" = "manual"
      || it.category ∈ (["application", "workflow-pattern", "model-preference"] : List String) then
    if it.priority.getD "optional" = "required" then .manualRequired else .manualOptional
  else
    if it.priority.getD "optional" = "required" then .promptRequired else .promptOptional

/-- A well-formed snapshot item in the sense of the data-model invariants of
the spec: canonical category, `os_support` drawn from the three canonical
identifiers, canonical priority, and an already-normalized install type. -/
def PlanItem.WellFormed (it : PlanItem) : Prop :=
  it.category ∈ plannerCategories
  ∧ (∀ v ∈ it.os_support.getD ALL_OSES, v ∈ ALL_OSES)
  ∧ it.priority.getD "optional" ∈ (["required", "optional"] : List String)
  ∧ it.install_type.getD "manual" = pyLower (it.install_type.getD "manual")
  ∧ it.name = pyStrip it.name

instance (it : PlanItem) : Decidable it.WellFormed := by
  unfold PlanItem.WellFormed; infer_instance

/-- The `action` and `reason` strings the planner attaches for each bucket. -/
def bucketAction (current_os : String) : BucketTag → String × String
  | .unsupported => ("unsupported_os", "Not supported on " ++ current_os)
  | .alreadyInstalled => ("skip_already_installed", "Already installed")
  | .manualRequired => ("manual_setup", "Manual setup required")
  | .manualOptional => ("manual_setup", "Manual setup required")
  | .promptRequired => ("prompt_install", "Ready to install")
  | .promptOptional => ("prompt_install", "Ready to install")

/-! ### Python dict and `sorted` models -/

/-- Python `dict` assignment `d[k] = v`: replace the value at an existing
key in place, otherwise append the new binding (insertion order). -/
def dictUpsert {α β : Type} [DecidableEq α] :
    List (α × β) → α → β → List (α × β)
  | [], k, v => [(k, v)]
  | (k', v') :: rest, k, v =>
    if k' = k then (k', v) :: rest else (k', v') :: dictUpsert rest k v

/-- Code-point lexicographic `≤` on character lists — Python's string
comparison. -/
def charListLe : List Char → List Char → Bool
  | [], _ => true
  | _ :: _, [] => false
  | a :: as, b :: bs => if a < b then true else if b < a then false else charListLe as bs

/-- Python `≤` on strings (code-point lexicographic). -/
def pyLeB (a b : String) : Bool := charListLe a.data b.data

/-- Python `sorted` on strings: the stable ascending sort under `pyLeB`. -/
def pySorted (l : List String) : List String :=
  List.insertionSort (fun a b => pyLeB a b) l

/-- The dict comprehension `{name.lower(): name for name in xs}`: later
duplicates of a key overwrite the value but keep the first insertion
position. -/
def lowerIndex (xs : List String) : List (String × String) :=
  xs.foldl (fun acc n => dictUpsert acc (pyLower n) n) []

/-! ### Redactor (`redact_text`, `redact_value`)

The six `re.sub` passes of `redact_text` are compiled to deterministic
scanners.  At each start position the backtracking behaviour of the Python
patterns is resolved: the key alternation `token|secret|password|
api[_-]?key|pat|authorization` has pairwise-incompatible alternatives, the
optional quotes of the first pattern can only succeed in one way, greedy
character-class runs back off for a trailing `\b` to the largest prefix
followed by a word boundary, and every substitution scans the original
string left to right resuming after each match.  `\s`, `\w` and
case-insensitivity use their ASCII meanings. -/

/-- Python `\w` (ASCII). -/
def isWordChar (c : Char) : Bool :=
  ('a' ≤ c && c ≤ 'z') || ('A' ≤ c && c ≤ 'Z') || ('0' ≤ c && c ≤ '9') || c = '_'

/-- ASCII letters and digits (`[A-Za-z0-9]`). -/
def isAlnumChar (c : Char) : Bool :=
  ('a' ≤ c && c ≤ 'z') || ('A' ≤ c && c ≤ 'Z') || ('0' ≤ c && c ≤ '9')

/-- Case-insensitive literal match (`lit` lower-case); returns the matched
characters as written and the remainder. -/
def matchCI : List Char → List Char → Option (List Char × List Char)
  | [], l => some ([], l)
  | _ :: _, [] => none
  | a :: as, c :: cs =>
    if c.toLower = a then (matchCI as cs).map (fun p => (c :: p.1, p.2)) else none

/-- Case-sensitive literal match; returns the remainder. -/
def matchCS : List Char → List Char → Option (List Char)
  | [], l => some l
  | _ :: _, [] => none
  | a :: as, c :: cs => if c = a then matchCS as cs else none

/-- `api[_-]?key`, with the optional separator's backtracking resolved:
if a separator is present, `key` must follow it (dropping the separator
cannot help, since `key` never matches at `_` or `-`). -/
def matchApiKey (l : List Char) : Option (List Char × List Char) :=
  match matchCI "api".data l with
  | none => none
  | some (m1, r1) =>
    match r1 with
    | c :: cs =>
      if c = '_' || c = '-' then
        match matchCI "key".data cs with
        | some (m2, r2) => some (m1 ++ c :: m2, r2)
        | none => none
      else
        match matchCI "key".data r1 with
        | some (m2, r2) => some (m1 ++ m2, r2)
        | none => none
    | [] => none

/-- The sensitive-key alternation, tried in the regex's order (at most one
alternative can match at a position, so the order is immaterial here). -/
def matchKey (l : List Char) : Option (List Char × List Char) :=
  (matchCI "token".data l) <|> (matchCI "secret".data l)
    <|> (matchCI "password".data l) <|> (matchApiKey l)
    <|> (matchCI "pat".data l) <|> (matchCI "authorization".data l)

/-- Word-character test of an optional character (out of bounds counts as
non-word, as for Python's `\b`). -/
def optWord : Option Char → Bool
  | some c => isWordChar c
  | none => false

/-- `\b` between two (possibly absent) adjacent characters. -/
def isBoundary (a b : Option Char) : Bool := optWord a != optWord b

/-- First pattern of `redact_text`:
`(?i)("?KEY"?\s*[:=]\s*")([^"]+)(") ↦ \1<redacted>\3`.
Returns the replaced text for the match and the number of characters
consumed. -/
def p1Try (_prev : Option Char) (l : List Char) : Option (List Char × Nat) :=
  let (q1, l1) := match l with
    | '"' :: rest => (['"'], rest)
    | _ => (([] : List Char), l)
  match matchKey l1 with
  | none => none
  | some (k, l2) =>
    let (q2, l3) := match l2 with
      | '"' :: rest => (['"'], rest)
      | _ => (([] : List Char), l2)
    let ws1 := l3.takeWhile isPyWs
    let l4 := l3.dropWhile isPyWs
    match l4 with
    | sep :: l5 =>
      if sep = ':' || sep = '=' then
        let ws2 := l5.takeWhile isPyWs
        let l6 := l5.dropWhile isPyWs
        match l6 with
        | '"' :: l7 =>
          let v := l7.takeWhile (· ≠ '"')
          let l8 := l7.dropWhile (· ≠ '"')
          match l8 with
          | '"' :: _ =>
            if v.isEmpty then none
            else
              let g1 := q1 ++ k ++ q2 ++ ws1 ++ [sep] ++ ws2 ++ ['"']
              some (g1 ++ "<redacted>".data ++ ['"'], g1.length + v.length + 1)
          | _ => none
        | _ => none
      else none
    | [] => none

/-- Second pattern: `(?i)KEY\s*[:=]\s*([^\s,;]+) ↦ \1=<redacted>`. -/
def p2Try (_prev : Option Char) (l : List Char) : Option (List Char × Nat) :=
  match matchKey l with
  | none => none
  | some (k, l1) =>
    let ws1 := l1.takeWhile isPyWs
    let l2 := l1.dropWhile isPyWs
    match l2 with
    | sep :: l3 =>
      if sep = ':' || sep = '=' then
        let ws2 := l3.takeWhile isPyWs
        let l4 := l3.dropWhile isPyWs
        let v := l4.takeWhile (fun c => ¬ (isPyWs c || c = ',' || c = ';'))
        if v.isEmpty then none
        else some (k ++ "=<redacted>".data,
          k.length + ws1.length + 1 + ws2.length + v.length)
      else none
    | [] => none

/-- The character following position `k` of a greedy run (inside the run,
or the first character after it). -/
def runNext (run : List Char) (next : Option Char) (k : Nat) : Option Char :=
  match run.get? k with
  | some d => some d
  | none => next

/-- `\b` after the first `k` characters of a greedy run. -/
def runBoundary (run : List Char) (next : Option Char) (k : Nat) : Bool :=
  match run.get? (k - 1) with
  | some c => isWordChar c != optWord (runNext run next k)
  | none => false

/-- Greedy back-off: the largest `k` with `minLen ≤ k ≤ run.length` such
that a word boundary holds after `k` run characters. -/
def bestK (run : List Char) (next : Option Char) (minLen : Nat) : Option Nat :=
  ((List.range (run.length + 1)).reverse).find?
    (fun k => decide (minLen ≤ k) && runBoundary run next k)

/-- Shared matcher for `\b lit CLASS{min,} \b` (the `sk-` and `ghp_`
patterns). -/
def prefixRunTry (lit : List Char) (minLen : Nat) (cls : Char → Bool)
    (prev : Option Char) (l : List Char) : Option (List Char × Nat) :=
  if ¬ isBoundary prev l.head? then none
  else match matchCS lit l with
    | none => none
    | some l1 =>
      let run := l1.takeWhile cls
      let next := (l1.dropWhile cls).head?
      match bestK run next minLen with
      | some k => some ("<redacted>".data, lit.length + k)
      | none => none

/-- `\b(sk-[A-Za-z0-9]{12,})\b ↦ <redacted>`. -/
def p3aTry : Option Char → List Char → Option (List Char × Nat) :=
  prefixRunTry "sk-".data 12 isAlnumChar

/-- `\b(ghp_[A-Za-z0-9]{20,})\b ↦ <redacted>`. -/
def p3bTry : Option Char → List Char → Option (List Char × Nat) :=
  prefixRunTry "ghp_".data 20 isAlnumChar

/-- `\b(xox[baprs]-[A-Za-z0-9-]{10,})\b ↦ <redacted>`. -/
def p3cTry (prev : Option Char) (l : List Char) : Option (List Char × Nat) :=
  if ¬ isBoundary prev l.head? then none
  else match matchCS "xox".data l with
    | none => none
    | some l1 =>
      match l1 with
      | c :: l2 =>
        if c = 'b' || c = 'a' || c = 'p' || c = 'r' || c = 's' then
          match l2 with
          | '-' :: l3 =>
            let run := l3.takeWhile (fun d => isAlnumChar d || d = '-')
            let next := (l3.dropWhile (fun d => isAlnumChar d || d = '-')).head?
            match bestK run next 10 with
            | some k => some ("<redacted>".data, 5 + k)
            | none => none
          | _ => none
        else none
      | [] => none

/-- `\b[A-Za-z0-9_\-]{30,}\b ↦ <redacted>`. -/
def p4Try (prev : Option Char) (l : List Char) : Option (List Char × Nat) :=
  if ¬ isBoundary prev l.head? then none
  else
    let run := l.takeWhile (fun d => isAlnumChar d || d = '_' || d = '-')
    let next := (l.dropWhile (fun d => isAlnumChar d || d = '_' || d = '-')).head?
    match bestK run next 30 with
    | some k => some ("<redacted>".data, k)
    | none => none

/-- `re.sub` driver, fuelled for structural recursion: scan left to right
over the original characters, emitting replacements and resuming after each
match; `prev` is the original character before the current position (for
`\b`).  Every matcher consumes at least one character (`max n 1` only
certifies progress), so one unit of fuel per input character suffices. -/
def subSweepF (try_ : Option Char → List Char → Option (List Char × Nat)) :
    Nat → Option Char → List Char → List Char
  | 0, _, l => l
  | _ + 1, _, [] => []
  | fuel + 1, prev, c :: cs =>
    match try_ prev (c :: cs) with
    | some (out, n) =>
      let m := max n 1
      out ++ subSweepF try_ fuel (((c :: cs).take m).getLast?) ((c :: cs).drop m)
    | none => c :: subSweepF try_ fuel (some c) cs

/-- One `re.sub` pass over a character list. -/
def subSweep (try_ : Option Char → List Char → Option (List Char × Nat))
    (prev : Option Char) (l : List Char) : List Char :=
  subSweepF try_ l.length prev l

/-- `redact_text(value)`: the six substitution passes in source order. -/
def redact_text (s : String) : String :=
  ⟨subSweep p4Try none (subSweep p3cTry none (subSweep p3bTry none
    (subSweep p3aTry none (subSweep p2Try none (subSweep p1Try none s.data)))))⟩

/-- Substring test on character lists. -/
def isInfixCL (needle : List Char) : List Char → Bool
  | [] => needle.isEmpty
  | c :: t => needle.isPrefixOf (c :: t) || isInfixCL needle t

/-- `SENSITIVE_KEY_RE.search`: the alternation consists of literals, so a
match anywhere is exactly an (ASCII case-insensitive) substring test. -/
def sensitiveKeySearch (k : String) : Bool :=
  (["token", "secret", "password", "api_key", "api-key", "apikey",
    "pat", "authorization"] : List String).any
    (fun lit => isInfixCL lit.data (pyLower k).data)

/-- JSON-shaped values (Python dicts, lists and scalars). -/
inductive JValue where
  | str (s : String)
  | num (n : Int)
  | bool (b : Bool)
  | null
  | arr (xs : List JValue)
  | obj (fields : List (String × JValue))
deriving Repr

mutual
/-- `redact_value(value, parent_key="")`. -/
def redact_value (v : JValue) (parentKey : String := "") : JValue :=
  match v with
  | .obj fields => .obj (redactFields fields)
  | .arr xs => .arr (redactArr xs parentKey)
  | .str s => if sensitiveKeySearch parentKey then .str "<redacted>" else .str (redact_text s)
  | .num n => .num n
  | .bool b => .bool b
  | .null => .null

/-- The dict branch of `redact_value`: a sensitive key redacts its value
wholesale, any other key recurses with itself as parent key. -/
def redactFields : List (String × JValue) → List (String × JValue)
  | [] => []
  | (k, v) :: rest =>
    (if sensitiveKeySearch k then (k, JValue.str "<redacted>")
     else (k, redact_value v k)) :: redactFields rest

/-- The list branch of `redact_value`: elements inherit the parent key. -/
def redactArr : List JValue → String → List JValue
  | [], _ => []
  | v :: rest, parentKey => redact_value v parentKey :: redactArr rest parentKey
end

/-! ### Saved-state tracker (`update_saved_app_state`) -/

/-- A `SavedApplicationEntry` of the state document.  The code also guards
against non-dict entry values; entries are well-typed dicts here, which is
the shape `load_state` + this function themselves maintain. -/
structure SavedEntry where
  first_saved_at : String
  last_selected_at : String
  last_seen_state : String
  priority : String
deriving Repr, DecidableEq

/-- The fresh entry the first loop creates for a newly detected app. -/
def freshEntry (now : String) : SavedEntry :=
  { first_saved_at := now, last_selected_at := "", last_seen_state := "installed",
    priority := "optional" }

/-- The field updates the first loop of `update_saved_app_state` applies to
an entry: mark installed; refresh `last_selected_at` (and backfill an empty
`first_saved_at`) only when selected this run; escalate priority when
requested, else coerce an invalid priority to `optional`. -/
def updateEntry (e : SavedEntry) (now : String) (isSel isReq : Bool) : SavedEntry :=
  let e1 := { e with last_seen_state := "installed" }
  let e2 :=
    if isSel then
      let e' := { e1 with last_selected_at := now }
      if e'.first_saved_at = "" then { e' with first_saved_at := now } else e'
    else e1
  if isReq then { e2 with priority := "required" }
  else if e2.priority ∉ (["required", "optional"] : List String) then
    { e2 with priority := "optional" }
  else e2

/-- One iteration of the first loop of `update_saved_app_state`, for the
`detected_lookup` pair `kv = (lower_name, original)`.  Python mutates the
entry object found under `original` or `lower_name` (or a fresh dict) and
then assigns it to key `original`; when the object was found under
`lower_name ≠ original` both keys end up holding the updated entry. -/
def savedUpdateOne (now : String) (selectedLowers required : List String)
    (saved : List (String × SavedEntry)) (kv : String × String) :
    List (String × SavedEntry) :=
  let lower := kv.1
  let original := kv.2
  let isSel := selectedLowers.contains lower
  let isReq := required.contains lower
  match saved.lookup original with
  | some e => dictUpsert saved original (updateEntry e now isSel isReq)
  | none =>
    match saved.lookup lower with
    | some e =>
      let e' := updateEntry e now isSel isReq
      dictUpsert (dictUpsert saved lower e') original e'
    | none => dictUpsert saved original (updateEntry (freshEntry now) now isSel isReq)

/-- The second loop of `update_saved_app_state`: every saved application
whose name (lower-cased) is not currently detected is marked
`last_seen_state = missing` (with an invalid priority coerced to
`optional`); detected ones are left untouched.  No key is removed. -/
def markMissing (currentDetected : List String)
    (saved : List (String × SavedEntry)) : List (String × SavedEntry) :=
  saved.map (fun kv =>
    if currentDetected.contains (pyLower kv.1) then kv
    else
      let prio := if kv.2.priority ∉ (["required", "optional"] : List String)
        then "optional" else kv.2.priority
      (kv.1, { kv.2 with last_seen_state := "missing", priority := prio }))

/-- `update_saved_app_state(state, detected_apps, selected_apps,
required_apps)`, acting on the `saved_applications` association list and
returning its new value.  `required` is the caller-supplied set (already
lower-cased at the call site); `now` stands for `now_iso()`. -/
def update_saved_app_state (saved : List (String × SavedEntry)) (now : String)
    (detected_apps selected_apps required : List String) :
    List (String × SavedEntry) :=
  let detLookup := lowerIndex detected_apps
  let selLowers := (lowerIndex selected_apps).map Prod.fst
  let afterInstall := detLookup.foldl (savedUpdateOne now selLowers required) saved
  markMissing (detLookup.map Prod.fst) afterInstall

/-! ### Selection reconciler (`compute_application_selection`) -/

/-- The three buckets returned by `compute_application_selection`. -/
structure AppSelection where
  saved_installed : List String
  saved_missing : List String
  new_candidates : List String
deriving Repr, DecidableEq

/-- `compute_application_selection(detected_apps, state)`: `savedKeys` are
the keys of `state["saved_applications"]` (the code drops non-string keys;
keys are strings here by construction). -/
def compute_application_selection (detected_apps savedKeys : List String) :
    AppSelection :=
  let saved_names := pySorted savedKeys
  let detected_set := lowerIndex detected_apps
  let saved_set := lowerIndex saved_names
  { saved_installed := pySorted
      ((detected_set.filter
        (fun kv => (saved_set.map Prod.fst).contains kv.1)).map Prod.snd)
    saved_missing := pySorted
      ((saved_set.filter
        (fun kv => ¬ (detected_set.map Prod.fst).contains kv.1)).map Prod.snd)
    new_candidates := pySorted
      ((detected_set.filter
        (fun kv => ¬ (saved_set.map Prod.fst).contains kv.1)).map Prod.snd) }

/-! ### Catalog builder (`build_item_from_recommendation` and friends) -/

/-- Python truthiness of a JSON value (`if config_snippet:`). -/
def jTruthy : JValue → Bool
  | .str s => s ≠ ""
  | .num n => n ≠ 0
  | .bool b => b
  | .null => false
  | .arr xs => ¬ xs.isEmpty
  | .obj fs => ¬ fs.isEmpty

/-- `dict.get(k)` on an object value. -/
def jGet (v : JValue) (k : String) : Option JValue :=
  match v with
  | .obj fs => fs.lookup k
  | _ => none

/-- Does `d.get(k)` equal the given string (Python `== "…"`)? -/
def jGetIsStr (v : JValue) (k : String) (s : String) : Bool :=
  match jGet v k with
  | some (.str t) => t = s
  | _ => false

/-- `d[k] = value` on an object value. -/
def jSet (v : JValue) (k : String) (value : JValue) : JValue :=
  match v with
  | .obj fs => .obj (dictUpsert fs k value)
  | other => other

/-- The `install` sub-dict of a descriptor, as `normalize_install_data`
reads it.  `none` fields model missing keys; `config_snippet` is modelled
after the `json.loads` re-parse of string snippets (a string value stands
for the parse-failure branch, which keeps the stripped string). -/
structure RecInstall where
  type_ : Option String := none
  command : Option String := none
  config_snippet : Option JValue := none
  source : Option String := none
  scope : Option String := none
  repo : Option String := none
deriving Repr

/-- The `verification` sub-dict of a descriptor. -/
structure RecVerification where
  type_ : Option String := none
  test_command : Option String := none
  success_indicator : Option String := none
deriving Repr

/-- A catalog descriptor (`rec`), restricted to the keys the builder
reads.  `prerequisites` and `tags` are `[]` when missing or not lists;
string coercions (`str(...)`) are already applied. -/
structure Rec where
  install : Option RecInstall := none
  verification : Option RecVerification := none
  prerequisites : List String := []
  tags : List String := []
  pricing : List (String × JValue) := []
  sdlc_phase : Option String := none
  source : Option String := none
  source_url : Option String := none
deriving Repr

/-- `normalize_install_data(rec)`: the normalized install dict. -/
def normalize_install_data (inst : Option RecInstall) : JValue :=
  let i := inst.getD {}
  let install_type := i.type_.getD "manual"
  let command := pyStrip (i.command.getD "")
  let snippet : Option JValue :=
    match i.config_snippet with
    | some (.str s) =>
      if pyStrip s = "" then some (.str s) else some (.str (pyStrip s))
    | other => other
  let base : List (String × JValue) :=
    [("type", .str install_type), ("command", .str command)]
  let base := match snippet with
    | some sv => if jTruthy sv then base ++ [("config_snippet", sv)] else base
    | none => base
  let base := match i.source with
    | some s => base ++ [("source", .str s)]
    | none => base
  let base := match i.scope with
    | some s => base ++ [("scope", .str s)]
    | none => base
  let base := match i.repo with
    | some s => base ++ [("repo", .str s)]
    | none => base
  .obj base

/-- The normalized verification descriptor (dict with optional keys). -/
structure VerifySpec where
  type_ : String
  test_command : Option String := none
  success_indicator : Option String := none
deriving Repr, DecidableEq

/-- `normalize_verification(rec)`. -/
def normalize_verification (ver : Option RecVerification) : VerifySpec :=
  let v := ver.getD {}
  let verify_type := v.type_.getD "manual"
  let test_command := pyStrip (v.test_command.getD "")
  let success_indicator := pyStrip (v.success_indicator.getD "")
  { type_ := verify_type
    test_command := if test_command ≠ "" then some test_command else none
    success_indicator := if success_indicator ≠ "" then some success_indicator else none }

/-- `infer_os_support(rec, category, source_os)`. -/
def infer_os_support (rec : Rec) (category source_os : String) : List String :=
  let blob := String.intercalate " " (rec.prerequisites.map pyLower)
  let supported :=
    (if isInfixCL "mac".data blob.data then ["macos"] else [])
    ++ (if isInfixCL "linux".data blob.data then ["linux"] else [])
    ++ (if isInfixCL "windows".data blob.data then ["windows"] else [])
  if ¬ supported.isEmpty then pySorted supported
  else if category = "application" then [source_os]
  else ALL_OSES

/-- A built `ProfileItem`.  The skill and model-preference extras the merge
loop attaches afterwards are optional fields. -/
structure ProfileItem where
  id : String
  name : String
  category : String
  sdlc_phase : String
  install : JValue
  verification : VerifySpec
  tags : List String
  source : String
  source_url : String
  pricing : List (String × JValue)
  os_support : List String
  manual_only : Bool
  priority : String
  skill_hash : Option String := none
  skill_scopes : Option (List String) := none
  value : Option String := none
deriving Repr

/-- `manual_item(name, category, source_os, note="")`. -/
def manual_item (name category source_os : String) (note : String := "") :
    ProfileItem :=
  { id := item_id category name
    name := name
    category := category
    sdlc_phase := "implementation"
    install := .obj [("type", .str "manual"), ("command", .str ""),
      ("instructions", .str (if note ≠ "" then note else "Manual setup required"))]
    verification := { type_ := "manual", test_command := some "Verify manually" }
    tags := []
    source := "detected"
    source_url := ""
    pricing := []
    os_support := if category = "application" then [source_os] else ALL_OSES
    manual_only := true
    priority := "optional" }

/-- `build_item_from_recommendation(name, category, source_os, rec,
mcp_config=None, skill_hash="")`. -/
def build_item_from_recommendation (name category source_os : String)
    (rec : Option Rec) (mcp_config : Option JValue := none)
    (skill_hash : String := "") : ProfileItem :=
  match rec with
  | none => manual_item name category source_os
  | some rec =>
    let install₀ := normalize_install_data rec.install
    let verification₀ := normalize_verification rec.verification
    let forced := category = "mcp" ∧ mcp_config.isSome
    let install₁ :=
      if forced then
        JValue.obj [("type", .str "mcp"), ("command", .str ""),
          ("config_snippet", mcp_config.getD .null)]
      else install₀
    let verification₁ :=
      if forced then
        { type_ := "mcp_connect", test_command := some ("Use MCP: " ++ name) }
      else verification₀
    let install₂ :=
      if category = "skill" ∧ ¬ jTruthy ((jGet install₁ "command").getD .null)
          ∧ jGetIsStr install₁ "type" "manual" then
        jSet install₁ "instructions"
          (.str "Share this skill package separately or install manually")
      else install₁
    { id := item_id category name skill_hash
      name := name
      category := category
      sdlc_phase := rec.sdlc_phase.getD "implementation"
      install := redact_value install₂
      verification := verification₁
      tags := rec.tags
      source := rec.source.getD "manual"
      source_url := rec.source_url.getD ""
      pricing := rec.pricing
      os_support := infer_os_support rec category source_os
      manual_only := category = "application" || jGetIsStr install₂ "type" "manual"
      priority := "optional" }

/-! ### Merge (`merge_detected_context`, pure core) -/

/-- A deduplicated skill detection entry (`detect_skills` output shape). -/
structure SkillEntry where
  name : String
  hash : String
  scopes : List String
deriving Repr, DecidableEq

/-- The case-insensitive first-occurrence dedup used by
`detect_workflow_patterns`. -/
def dedupCI (xs : List String) : List String :=
  (xs.foldl (fun acc n =>
    if (acc.2.map pyLower).contains (pyLower n) then acc
    else (acc.1, acc.2 ++ [n])) ((), [])).2

/-- `detect_workflow_patterns(repo_payload, detected_payload)`: a pure
function of the repo flags and the detected CLI tools. -/
def detect_workflow_patterns (has_hooks has_tests has_agent_docs : Bool)
    (cli_tools : List String) : List String :=
  let patterns :=
    (if has_hooks then ["pre-commit-hooks"] else [])
    ++ (if has_tests then ["test-first-debugging"] else [])
    ++ (if has_agent_docs then ["agents-md-structure"] else [])
    ++ (if (cli_tools.map pyLower).contains "beads" then ["context-management"] else [])
  dedupCI patterns

/-- The external detection facts consumed by `merge_detected_context`: the
probe payload's per-category name lists and OS string, the merged on-disk
MCP configuration blocks (keyed by lower-cased server name), the detected
skill folders, the repo-analysis flags, the detected model preferences
(name, value), the descriptor catalog (keyed by lower-cased name), and the
saved-state keys. -/
structure DetectInputs where
  mcps : List String := []
  cli_tools : List String := []
  applications : List String := []
  plugins : List String := []
  osRaw : String := ""
  mcpConfigs : List (String × JValue) := []
  skills : List SkillEntry := []
  has_hooks : Bool := false
  has_tests : Bool := false
  has_agent_docs : Bool := false
  model_preferences : List (String × String) := []
  recommendations : List (String × Rec) := []
  savedKeys : List String := []
deriving Repr

/-- The merged context (catalog, selection, installed index). -/
structure MergedContext where
  os : String
  mcps : List ProfileItem
  cli_tools : List ProfileItem
  skills : List ProfileItem
  applications : List ProfileItem
  plugins : List ProfileItem
  workflow_patterns : List ProfileItem
  model_preferences : List ProfileItem
  application_selection : AppSelection
  installed_index : List (String × List String)
deriving Repr

/-- The pure core of `merge_detected_context`: build one `ProfileItem` per
detected name per category.  `systemName` is the host `platform.system()`
used by `normalize_os`. -/
def merge_detected_context (inp : DetectInputs) (systemName : String) :
    MergedContext :=
  let source_os := normalize_os (some inp.osRaw) systemName
  let rec_for := fun (n : String) => inp.recommendations.lookup (pyLower n)
  let mcpItems := (pySorted inp.mcps).map (fun n =>
    build_item_from_recommendation n "mcp" source_os (rec_for n)
      (inp.mcpConfigs.lookup (pyLower n)))
  let cliItems := (pySorted inp.cli_tools).map (fun n =>
    build_item_from_recommendation n "cli-tool" source_os (rec_for n))
  let appItems := (pySorted inp.applications).map (fun n =>
    build_item_from_recommendation n "application" source_os (rec_for n))
  let pluginItems := (pySorted inp.plugins).map (fun n =>
    build_item_from_recommendation n "plugin" source_os (rec_for n))
  let skillItems := inp.skills.map (fun sk =>
    let rec0 := rec_for sk.name
    let item := build_item_from_recommendation sk.name "skill" source_os rec0
      none sk.hash
    let item := { item with
      skill_hash := some sk.hash
      skill_scopes := some sk.scopes }
    match rec0 with
    | none =>
      { item with
        manual_only := true
        install := .obj [("type", .str "manual"), ("command", .str ""),
          ("instructions",
            .str "Custom skill detected. Share/install the skill directory manually.")] }
    | some _ => item)
  let wpItems := (detect_workflow_patterns inp.has_hooks inp.has_tests
      inp.has_agent_docs inp.cli_tools).map (fun pn =>
    match rec_for pn with
    | none => manual_item pn "workflow-pattern" source_os "Document and apply manually"
    | some r =>
      { build_item_from_recommendation pn "workflow-pattern" source_os (some r) with
        manual_only := true })
  let mpItems := inp.model_preferences.map (fun mp =>
    { manual_item mp.1 "model-preference" source_os "Set model preference manually" with
      value := some mp.2 })
  { os := source_os
    mcps := mcpItems
    cli_tools := cliItems
    skills := skillItems
    applications := appItems
    plugins := pluginItems
    workflow_patterns := wpItems
    model_preferences := mpItems
    application_selection :=
      compute_application_selection inp.applications inp.savedKeys
    installed_index :=
      [("mcp", mcpItems.map (fun i => pyLower i.name)),
       ("cli-tool", cliItems.map (fun i => pyLower i.name)),
       ("application", appItems.map (fun i => pyLower i.name)),
       ("plugin", pluginItems.map (fun i => pyLower i.name)),
       ("skill", skillItems.map (fun i => pyLower i.name)),
       ("workflow-pattern", wpItems.map (fun i => pyLower i.name)),
       ("model-preference", mpItems.map (fun i => pyLower i.name))] }

/-! ### Snapshot builder (`build_profile_snapshot`) -/

/-- The `counts` summary of a snapshot. -/
structure SnapshotCounts where
  total : Nat
  required : Nat
  optional : Nat
  by_category : List (String × Nat)
deriving Repr, DecidableEq

/-- The per-category tally (`by_category`), a single pass over the items. -/
def tallyByCategory (items : List ProfileItem) : List (String × Nat) :=
  items.foldl (fun acc it =>
    dictUpsert acc it.category (((acc.lookup it.category).getD 0) + 1)) []

/-- The fields of the snapshot document the claims concern (the remaining
fields of the Python dict are constants). -/
structure ProfileSnapshot where
  profile_name : String
  metadata_os : String
  items : List ProfileItem
  counts : SnapshotCounts
deriving Repr

/-- The per-item pass of the snapshot loop: promote the priority when the
lower-cased name or id matches a required token, and redact the install
descriptor. -/
def snapshotOverride (required_tokens : List String) (it : ProfileItem) :
    ProfileItem :=
  { it with
    priority :=
      if required_tokens.contains (pyLower it.name)
          || required_tokens.contains (pyLower it.id) then "required"
      else "optional"
    install := redact_value it.install }

/-- `build_profile_snapshot(merged, selected_new_apps, include_saved_apps,
include_saved_missing_apps, required_items, profile_name)`: returns the
snapshot, the selection-debug lists, and the warnings. -/
def build_profile_snapshot (merged : MergedContext)
    (selected_new_apps : List String) (include_saved_apps : Bool)
    (include_saved_missing_apps : List String) (required_items : List String)
    (profile_name : String) (systemName : String) :
    ProfileSnapshot × (List String × List String) × List String :=
  let app_selection := merged.application_selection
  let saved_installed := app_selection.saved_installed
  let saved_missing := app_selection.saved_missing
  let new_candidates := app_selection.new_candidates
  let normalized_new := lowerIndex new_candidates
  let normalized_saved_missing := lowerIndex saved_missing
  let include_apps₀ : List (String × String) :=
    if include_saved_apps then
      saved_installed.foldl (fun acc app => dictUpsert acc (pyLower app) app) []
    else []
  let step1 := selected_new_apps.foldl (fun (acc : List (String × String) × List String) app =>
    match normalized_new.lookup (pyLower app) with
    | none => (acc.1, acc.2 ++ ["Ignored unknown new app selection: " ++ app])
    | some v => (dictUpsert acc.1 (pyLower app) v, acc.2)) (include_apps₀, [])
  let step2 := include_saved_missing_apps.foldl
    (fun (acc : List (String × String) × List String) app =>
    match normalized_saved_missing.lookup (pyLower app) with
    | none => (acc.1, acc.2 ++ ["Ignored unknown saved-missing app selection: " ++ app])
    | some v => (dictUpsert acc.1 (pyLower app) v, acc.2)) step1
  let include_apps := step2.1
  let warnings := step2.2
  let required_tokens := required_items.map pyLower
  let overrideItem := snapshotOverride required_tokens
  let selected_items :=
    merged.mcps.map overrideItem
    ++ merged.cli_tools.map overrideItem
    ++ merged.skills.map overrideItem
    ++ ((merged.applications.filter
          (fun it => (include_apps.map Prod.fst).contains (pyLower it.name))).map
        overrideItem)
    ++ merged.plugins.map overrideItem
    ++ merged.workflow_patterns.map overrideItem
    ++ merged.model_preferences.map overrideItem
  let counts : SnapshotCounts :=
    { total := selected_items.length
      required := (selected_items.filter (fun it => it.priority = "required")).length
      optional := (selected_items.filter (fun it => ¬ it.priority = "required")).length
      by_category := tallyByCategory selected_items }
  let snapshot : ProfileSnapshot :=
    { profile_name := if profile_name ≠ "" then profile_name else "N-bench SDLC Profile"
      metadata_os := normalize_os (some merged.os) systemName
      items := selected_items
      counts := counts }
  (snapshot,
    (pySorted ((include_apps.filter
        (fun kv => (normalized_new.map Prod.fst).contains kv.1)).map Prod.snd),
      pySorted (include_apps.map Prod.snd)),
    warnings)

/-- The `include_apps` accumulator of the snapshot builder (paired with the
warnings list), factored out so that theorems can name the application
selection predicate. -/
def snapshotIncludeApps (merged : MergedContext) (selected_new_apps : List String)
    (include_saved_apps : Bool) (include_saved_missing_apps : List String) :
    List (String × String) × List String :=
  let app_selection := merged.application_selection
  let saved_installed := app_selection.saved_installed
  let saved_missing := app_selection.saved_missing
  let new_candidates := app_selection.new_candidates
  let normalized_new := lowerIndex new_candidates
  let normalized_saved_missing := lowerIndex saved_missing
  let include_apps₀ : List (String × String) :=
    if include_saved_apps then
      saved_installed.foldl (fun acc app => dictUpsert acc (pyLower app) app) []
    else []
  let step1 := selected_new_apps.foldl (fun (acc : List (String × String) × List String) app =>
    match normalized_new.lookup (pyLower app) with
    | none => (acc.1, acc.2 ++ ["Ignored unknown new app selection: " ++ app])
    | some v => (dictUpsert acc.1 (pyLower app) v, acc.2)) (include_apps₀, [])
  include_saved_missing_apps.foldl
    (fun (acc : List (String × String) × List String) app =>
    match normalized_saved_missing.lookup (pyLower app) with
    | none => (acc.1, acc.2 ++ ["Ignored unknown saved-missing app selection: " ++ app])
    | some v => (dictUpsert acc.1 (pyLower app) v, acc.2)) step1

/-! ### The installer dispatcher (`parse_verify_arg`, `install_item`) -/

/-- The `verification` sub-dict of a plan item as `parse_verify_arg` reads
it; `none` fields model missing keys (the values at these keys are strings
in the snapshot documents the program writes and reads).  A non-dict
`verification` value is modelled by `none` at the item level. -/
structure ItemVerification where
  type_ : Option String := none
  test_command : Option String := none
deriving Repr, DecidableEq

/-- The `install` sub-dict of a plan item as `install_item` reads it;
`none` fields model missing keys.  `config_snippet` keeps the raw JSON
value (`install_item` itself re-parses string snippets). -/
structure ItemInstall where
  type_ : Option String := none
  instructions : Option String := none
  config_snippet : Option JValue := none
  command : Option String := none
  source : Option String := none
  scope : Option String := none
  repo : Option String := none
deriving Repr

/-- The plan item handed to the installer; a non-dict `install` value (the
source coerces it to the empty dict) is modelled by `none`. -/
structure InstallItemInput where
  name : String := ""
  category : String := ""
  manual_only : Bool := false
  install : Option ItemInstall := some {}
  verification : Option ItemVerification := some {}
deriving Repr

/-- The dict returned by `install_item`; `none` fields model keys the
returned dict does not carry on that path. -/
structure InstallResult where
  success : Bool
  name : String
  category : String
  manual : Bool
  installed : Bool
  verification : String
  message : Option String := none
  dry_run : Option Bool := none
  install_command : Option (List String) := none
  verify_command : Option (List String) := none
  stdout : Option String := none
  stderr : Option String := none
  verify_stdout : Option String := none
  verify_stderr : Option String := none
deriving Repr, DecidableEq

/-- `parse_verify_arg(item)`. -/
def parse_verify_arg (item : InstallItemInput) : String × String :=
  match item.verification with
  | none => ("manual", "Verify manually")
  | some v =>
    let verify_type := v.type_.getD "manual"
    let test_command := pyStrip (v.test_command.getD "")
    if verify_type = "command_exists" then
      (verify_type,
        if test_command ≠ "" then ⟨test_command.data.takeWhile (fun c => ¬ c = ' ')⟩
        else item.name)
    else if verify_type = "config_exists" then (verify_type, test_command)
    else if verify_type = "mcp_connect" then (verify_type, "")
    else ("manual", if test_command ≠ "" then test_command else "Verify manually")

/-- The `manual_only` flag `install_item` computes. -/
def installManualOnly (item : InstallItemInput) : Bool :=
  item.manual_only
  || pyLower (pyStrip ((item.install.getD {}).type_.getD "manual")) == "manual"
  || ["application", "workflow-pattern", "model-preference"].contains
      (pyLower (pyStrip item.category))

/-- The command-construction stage of `install_item`: either an
early-return record (`.error`) or the resolved installer command (`.ok`).
`jloads` and `jdumps` stand for the `json.loads` re-parse of a string
snippet (`none` modelling `JSONDecodeError`) and for `json.dumps`. -/
def buildInstallCommand (item : InstallItemInput) (plugin_root : String)
    (jloads : String → Option JValue) (jdumps : JValue → String) :
    Except InstallResult (List String) :=
  let name := pyStrip item.name
  let category := pyLower (pyStrip item.category)
  let install := item.install.getD {}
  let install_type := pyLower (pyStrip (install.type_.getD "manual"))
  let scripts := plugin_root ++ "/scripts"
  if category == "mcp" || install_type == "mcp" then
    let config : Option JValue :=
      match install.config_snippet with
      | some (.str s) => jloads s
      | other => other
    match config with
    | some (.obj fs) =>
      .ok [scripts ++ "/install-mcp.sh", name, jdumps (redact_value (.obj fs))]
    | _ =>
      .error { success := false
               name := name
               category := category
               manual := true
               installed := false
               verification := "manual"
               message := some "Missing valid MCP config_snippet" }
  else if category == "cli-tool" then
    let cli_command := pyStrip (install.command.getD "")
    if cli_command = "" then
      .error { success := false
               name := name
               category := category
               manual := true
               installed := false
               verification := "manual"
               message := some "No CLI install command provided" }
    else
      .ok [scripts ++ "/install-cli.sh", name, cli_command,
        if install_type ≠ "" then install_type else "manual"]
  else if category == "skill" then
    let source := pyStrip (install.source.getD "")
    let scope₀ := pyStrip (install.scope.getD "user")
    let scope := if scope₀ ≠ "" then scope₀ else "user"
    if source ≠ "" then .ok [scripts ++ "/install-skill.sh", name, source, scope]
    else .ok [scripts ++ "/install-skill.sh", name]
  else if category == "plugin" then
    let repo := pyStrip (install.repo.getD "")
    if repo ≠ "" then .ok [scripts ++ "/install-plugin.sh", name, repo]
    else .ok [scripts ++ "/install-plugin.sh", name]
  else
    .error { success := true
             name := name
             category := category
             manual := true
             installed := false
             verification := "manual"
             message := some "Manual setup required for this category" }

/-- The resolved verification command of `install_item`. -/
def installVerifyCommand (item : InstallItemInput) (plugin_root : String) :
    List String :=
  [plugin_root ++ "/scripts/verify-install.sh", pyStrip item.name,
    (parse_verify_arg item).1]
  ++ (if (parse_verify_arg item).2 ≠ "" then [(parse_verify_arg item).2] else [])

/-- `install_item(item, plugin_root, dry_run=False)`.  `runCmd` models
`run_cmd` (synchronous subprocess execution plus output stripping),
returning (exit code, stdout, stderr). -/
def install_item (item : InstallItemInput) (plugin_root : String)
    (jloads : String → Option JValue) (jdumps : JValue → String)
    (runCmd : List String → Int × String × String) (dry_run : Bool := false) :
    InstallResult :=
  let name := pyStrip item.name
  let category := pyLower (pyStrip item.category)
  let install := item.install.getD {}
  if installManualOnly item then
    { success := true
      name := name
      category := category
      manual := true
      installed := false
      verification := "manual"
      message := some (match install.instructions with
        | some s => if s ≠ "" then s else "Manual setup required"
        | none => "Manual setup required") }
  else
    match buildInstallCommand item plugin_root jloads jdumps with
    | .error r => r
    | .ok command =>
      let vp := parse_verify_arg item
      let verify_command := installVerifyCommand item plugin_root
      if dry_run then
        { success := true
          name := name
          category := category
          manual := false
          installed := false
          verification := vp.1
          dry_run := some true
          install_command := some command
          verify_command := some verify_command }
      else
        let res := runCmd command
        if res.1 ≠ 0 then
          { success := false
            name := name
            category := category
            manual := false
            installed := false
            verification := "not_run"
            install_command := some command
            stdout := some res.2.1
            stderr := some res.2.2 }
        else
          let vres := runCmd verify_command
          { success := (vres.1 == 0 || vp.1 == "manual")
            name := name
            category := category
            manual := false
            installed := true
            verification := vp.1
            install_command := some command
            verify_command := some verify_command
            stdout := some res.2.1
            stderr := some res.2.2
            verify_stdout := some vres.2.1
            verify_stderr := some vres.2.2 }

end ProfileManager

namespace ProfileManager

/-- C10 helper: membership of the result in the three canonical names. -/
theorem normalize_os_mem (raw : Option String) (systemName : String) :
    normalize_os raw systemName ∈ ALL_OSES := by
  unfold normalize_os hostFallback ALL_OSES
  dsimp only
  split
  · simp
  · split
    · simp
    · split
      · simp
      · split
        · simp
        · split <;> simp

/-- Unfolded shape of `normalize_os`, for rewriting on concrete aliases. -/
theorem normalize_os_def (raw : Option String) (systemName : String) :
    normalize_os raw systemName =
      (if pyLower (pyStrip (raw.getD "")) ∈ (["darwin", "mac", "macos", "osx"] : List String)
        then "macos"
       else if pyLower (pyStrip (raw.getD "")) = "linux" then "linux"
       else if pyLower (pyStrip (raw.getD ""))
          ∈ (["windows", "win32", "cygwin", "msys"] : List String) then "windows"
       else hostFallback systemName) := rfl

theorem normalize_os_alias_macos (raw : String)
    (h : pyLower (pyStrip raw) ∈ (["darwin", "mac", "macos", "osx"] : List String))
    (systemName : String) : normalize_os (some raw) systemName = "macos" := by
  rw [normalize_os_def, Option.getD_some, if_pos h]

theorem normalize_os_alias_linux (raw : String)
    (h1 : pyLower (pyStrip raw) ∉ (["darwin", "mac", "macos", "osx"] : List String))
    (h2 : pyLower (pyStrip raw) = "linux")
    (systemName : String) : normalize_os (some raw) systemName = "linux" := by
  rw [normalize_os_def, Option.getD_some, if_neg h1, if_pos h2]

theorem normalize_os_alias_windows (raw : String)
    (h1 : pyLower (pyStrip raw) ∉ (["darwin", "mac", "macos", "osx"] : List String))
    (h2 : pyLower (pyStrip raw) ≠ "linux")
    (h3 : pyLower (pyStrip raw) ∈ (["windows", "win32", "cygwin", "msys"] : List String))
    (systemName : String) : normalize_os (some raw) systemName = "windows" := by
  rw [normalize_os_def, Option.getD_some, if_neg h1, if_neg h2, if_pos h3]

/-- A canonical OS identifier is normalized to itself on every host. -/
theorem normalize_os_canonical {v : String} (hv : v ∈ ALL_OSES) (systemName : String) :
    normalize_os (some v) systemName = v := by
  simp only [ALL_OSES, List.mem_cons, List.not_mem_nil, or_false] at hv
  rcases hv with rfl | rfl | rfl
  · exact normalize_os_alias_macos _ (by decide) _
  · exact normalize_os_alias_linux _ (by decide) (by decide) _
  · exact normalize_os_alias_windows _ (by decide) (by decide) (by decide) _

/-- The annotated item `planStep` emits always carries the input item. -/
theorem planStep_snd_item (idx : List (String × List String))
    (current_os systemName : String) (it : PlanItem) :
    (planStep idx current_os systemName it).2.item = it := by
  unfold planStep
  dsimp only
  repeat' split
  all_goals rfl

/-- The four actionable buckets and the two informational buckets of
`plan_import_actions` are the input items filtered by their `planStep`
classification (in input order). -/
theorem plan_import_bucket_eq (items : List PlanItem)
    (idx : List (String × List String)) (current_os systemName : String)
    (b : BucketTag) :
    (plan_import_actions items idx current_os systemName).bucket b =
      ((items.map (planStep idx current_os systemName)).filter
        (fun p => p.1 = b)).map Prod.snd := by
  cases b <;> rfl

/-- Full characterization of the loop body on well-formed items: the bucket
is the spec classification and the annotation is determined by it. -/
theorem planStep_eq (idx : List (String × List String))
    (current_os systemName : String) (it : PlanItem) (hwf : it.WellFormed) :
    planStep idx current_os systemName it =
      (specClassify it current_os idx,
        ⟨it, (bucketAction current_os (specClassify it current_os idx)).1,
          (bucketAction current_os (specClassify it current_os idx)).2⟩) := by
  obtain ⟨hcat, hos, hpri, hity, hname⟩ := hwf
  have hcatid : pyLower (pyStrip it.category) = it.category := by
    revert hcat
    have h7 : ∀ c ∈ plannerCategories, pyLower (pyStrip c) = c := by decide
    exact h7 it.category
  have hosid : (it.os_support.getD ALL_OSES).map
      (fun v => normalize_os (some v) systemName) = it.os_support.getD ALL_OSES := by
    exact (List.map_congr_left
      (fun v hv => normalize_os_canonical (hos v hv) systemName)).trans
      (List.map_id _)
  have hpriid : pyLower (pyStrip (it.priority.getD "optional")) =
      it.priority.getD "optional" := by
    revert hpri
    have h2 : ∀ p ∈ (["required", "optional"] : List String), pyLower (pyStrip p) = p := by
      decide
    exact h2 _
  unfold planStep specClassify
  simp only [hcatid, hosid, hpriid, ← hname, ← hity, if_pos hcat]
  split_ifs <;> rfl

/-! ### Dict-model and selection-reconciler lemmas -/

theorem mem_dictUpsert {α β : Type} [DecidableEq α] (l : List (α × β))
    (k : α) (v : β) (p : α × β) (hp : p ∈ dictUpsert l k v) :
    p ∈ l ∨ (p.1 = k ∧ p.2 = v) := by
  induction l with
  | nil =>
    simp only [dictUpsert, List.mem_singleton] at hp
    right; rw [hp]; exact ⟨rfl, rfl⟩
  | cons q rest ih =>
    obtain ⟨k', v'⟩ := q
    simp only [dictUpsert] at hp
    split at hp
    · rcases List.mem_cons.mp hp with h | h
      · right; rw [h]; exact ⟨by assumption, rfl⟩
      · left; exact List.mem_cons_of_mem _ h
    · rcases List.mem_cons.mp hp with h | h
      · left; exact List.mem_cons.mpr (Or.inl h)
      · rcases ih h with h' | h'
        · left; exact List.mem_cons_of_mem _ h'
        · right; exact h'

theorem keys_dictUpsert {α β : Type} [DecidableEq α] (l : List (α × β))
    (k : α) (v : β) (a : α) :
    a ∈ (dictUpsert l k v).map Prod.fst ↔ a ∈ l.map Prod.fst ∨ a = k := by
  induction l with
  | nil => simp [dictUpsert]
  | cons q rest ih =>
    obtain ⟨k', v'⟩ := q
    simp only [dictUpsert]
    split
    · subst_eqs
      simp only [List.map_cons, List.mem_cons]
      tauto
    · simp only [List.map_cons, List.mem_cons, ih]
      tauto

theorem nodup_keys_dictUpsert {α β : Type} [DecidableEq α] (l : List (α × β))
    (k : α) (v : β) (h : (l.map Prod.fst).Nodup) :
    ((dictUpsert l k v).map Prod.fst).Nodup := by
  induction l with
  | nil => simp [dictUpsert]
  | cons q rest ih =>
    obtain ⟨k', v'⟩ := q
    simp only [List.map_cons, List.nodup_cons] at h
    simp only [dictUpsert]
    split
    · simp only [List.map_cons, List.nodup_cons]
      exact h
    · simp only [List.map_cons, List.nodup_cons, keys_dictUpsert]
      refine ⟨?_, ih h.2⟩
      rintro (hk | hk)
      · exact h.1 hk
      · subst hk; simp_all

/-- Pairs of an association list with `Nodup` keys are determined by their
key. -/
theorem eq_of_mem_of_nodup_keys {α β : Type} (l : List (α × β))
    (h : (l.map Prod.fst).Nodup) (p q : α × β) (hp : p ∈ l) (hq : q ∈ l)
    (hk : p.1 = q.1) : p = q := by
  induction l with
  | nil => cases hp
  | cons r rest ih =>
    simp only [List.map_cons, List.nodup_cons] at h
    rcases List.mem_cons.mp hp with h1 | h1 <;> rcases List.mem_cons.mp hq with h2 | h2
    · rw [h1, h2]
    · exfalso
      apply h.1
      rw [← h1, hk]
      exact List.mem_map.mpr ⟨q, h2, rfl⟩
    · exfalso
      apply h.1
      rw [← h2, ← hk]
      exact List.mem_map.mpr ⟨p, h1, rfl⟩
    · exact ih h.2 h1 h2

/-- Invariant of the `{name.lower(): name for name in xs}` comprehension,
relative to a starting accumulator. -/
theorem foldl_lowerIndex_inv (xs : List String) (acc : List (String × String))
    (h1 : (acc.map Prod.fst).Nodup) (h2 : ∀ p ∈ acc, pyLower p.2 = p.1) :
    ((xs.foldl (fun a n => dictUpsert a (pyLower n) n) acc).map Prod.fst).Nodup
    ∧ (∀ p ∈ xs.foldl (fun a n => dictUpsert a (pyLower n) n) acc,
        pyLower p.2 = p.1 ∧ (p.2 ∈ xs ∨ p ∈ acc))
    ∧ (∀ a ∈ xs,
        pyLower a ∈ (xs.foldl (fun a n => dictUpsert a (pyLower n) n) acc).map Prod.fst)
    ∧ (∀ k ∈ acc.map Prod.fst,
        k ∈ (xs.foldl (fun a n => dictUpsert a (pyLower n) n) acc).map Prod.fst) := by
  induction xs generalizing acc with
  | nil =>
    refine ⟨h1, ?_, ?_, ?_⟩
    · intro p hp; exact ⟨h2 p hp, Or.inr hp⟩
    · intro a ha; cases ha
    · intro k hk; exact hk
  | cons n xs ih =>
    have h1' : ((dictUpsert acc (pyLower n) n).map Prod.fst).Nodup :=
      nodup_keys_dictUpsert acc _ _ h1
    have h2' : ∀ p ∈ dictUpsert acc (pyLower n) n, pyLower p.2 = p.1 := by
      intro p hp
      rcases mem_dictUpsert acc _ _ p hp with h | h
      · exact h2 p h
      · rw [h.2, h.1]
    obtain ⟨g1, g2, g3, g4⟩ := ih (dictUpsert acc (pyLower n) n) h1' h2'
    refine ⟨g1, ?_, ?_, ?_⟩
    · intro p hp
      obtain ⟨e1, e2⟩ := g2 p hp
      refine ⟨e1, ?_⟩
      rcases e2 with h | h
      · exact Or.inl (List.mem_cons_of_mem _ h)
      · rcases mem_dictUpsert acc _ _ p h with h' | h'
        · exact Or.inr h'
        · left
          rw [h'.2]
          exact List.mem_cons_self _ _
    · intro a ha
      rcases List.mem_cons.mp ha with rfl | ha'
      · exact g4 _ ((keys_dictUpsert acc _ _ _).mpr (Or.inr rfl))
      · exact g3 a ha'
    · intro k hk
      exact g4 k ((keys_dictUpsert acc _ _ _).mpr (Or.inl hk))

theorem lowerIndex_nodup_keys (xs : List String) :
    ((lowerIndex xs).map Prod.fst).Nodup :=
  (foldl_lowerIndex_inv xs [] (by simp) (by simp)).1

theorem lowerIndex_mem (xs : List String) (p : String × String)
    (hp : p ∈ lowerIndex xs) : pyLower p.2 = p.1 ∧ p.2 ∈ xs := by
  have := (foldl_lowerIndex_inv xs [] (by simp) (by simp)).2.1 p hp
  simpa using this

theorem lowerIndex_covers (xs : List String) (a : String) (ha : a ∈ xs) :
    pyLower a ∈ (lowerIndex xs).map Prod.fst :=
  (foldl_lowerIndex_inv xs [] (by simp) (by simp)).2.2.1 a ha

theorem mem_pySorted (l : List String) (x : String) :
    x ∈ pySorted l ↔ x ∈ l :=
  (List.perm_insertionSort _ l).mem_iff

/-! ### Saved-state tracker lemmas -/

theorem char_toLower_idem (c : Char) : c.toLower.toLower = c.toLower := by
  unfold Char.toLower
  dsimp only
  split
  · next h =>
    have hvalid : (c.toNat + 32).isValidChar := by
      left
      have := h.2
      omega
    have hval : (Char.ofNat (c.toNat + 32)).toNat = c.toNat + 32 := by
      unfold Char.ofNat
      rw [dif_pos hvalid]
      rfl
    rw [if_neg]
    rw [hval]
    omega
  · rfl

theorem pyLower_idem (s : String) : pyLower (pyLower s) = pyLower s := by
  unfold pyLower
  simp only [List.map_map]
  congr 1
  apply List.map_congr_left
  intro c _
  exact char_toLower_idem c

theorem updateEntry_state (e : SavedEntry) (now : String) (isSel isReq : Bool) :
    (updateEntry e now isSel isReq).last_seen_state = "installed" := by
  unfold updateEntry
  dsimp only
  split_ifs <;> rfl

theorem updateEntry_selected (e : SavedEntry) (now : String) (isSel isReq : Bool) :
    (updateEntry e now isSel isReq).last_selected_at =
      (if isSel then now else e.last_selected_at) := by
  unfold updateEntry
  dsimp only
  split_ifs <;> rfl

theorem updateEntry_priority (e : SavedEntry) (now : String) (isSel isReq : Bool) :
    (updateEntry e now isSel isReq).priority =
      (if isReq then "required"
       else if e.priority ∉ (["required", "optional"] : List String) then "optional"
       else e.priority) := by
  unfold updateEntry
  dsimp only
  split_ifs <;> rfl

theorem mem_dictUpsert_self {α β : Type} [DecidableEq α] (l : List (α × β))
    (k : α) (v : β) : (k, v) ∈ dictUpsert l k v := by
  induction l with
  | nil => simp [dictUpsert]
  | cons q rest ih =>
    obtain ⟨k', v'⟩ := q
    simp only [dictUpsert]
    split
    · next h => rw [h]; exact List.mem_cons_self _ _
    · exact List.mem_cons_of_mem _ ih

theorem mem_dictUpsert_other {α β : Type} [DecidableEq α] (l : List (α × β))
    (k : α) (v : β) (p : α × β) (hp : p ∈ l) (hne : p.1 ≠ k) :
    p ∈ dictUpsert l k v := by
  induction l with
  | nil => cases hp
  | cons q rest ih =>
    obtain ⟨k', v'⟩ := q
    simp only [dictUpsert]
    rcases List.mem_cons.mp hp with h | h
    · split
      · next he =>
        rw [h]
        rw [h] at hne
        exact absurd he (by simpa using hne)
      · rw [h]; exact List.mem_cons_self _ _
    · split
      · exact List.mem_cons_of_mem _ h
      · exact List.mem_cons_of_mem _ (ih h)

/-- A binding whose key differs from both the lower and original names of
the processed pair survives one first-loop iteration. -/
theorem savedUpdateOne_preserves (now : String) (sel req : List String)
    (saved : List (String × SavedEntry)) (kv : String × String)
    (p : String × SavedEntry) (hp : p ∈ saved)
    (h1 : p.1 ≠ kv.1) (h2 : p.1 ≠ kv.2) :
    p ∈ savedUpdateOne now sel req saved kv := by
  unfold savedUpdateOne
  dsimp only
  split
  · exact mem_dictUpsert_other _ _ _ p hp h2
  · split
    · exact mem_dictUpsert_other _ _ _ p
        (mem_dictUpsert_other _ _ _ p hp h1) h2
    · exact mem_dictUpsert_other _ _ _ p hp h2

/-- After one first-loop iteration, the original-cased detected name is
bound to an entry marked `installed`. -/
theorem savedUpdateOne_installed (now : String) (sel req : List String)
    (saved : List (String × SavedEntry)) (kv : String × String) :
    ∃ e, (kv.2, e) ∈ savedUpdateOne now sel req saved kv
      ∧ e.last_seen_state = "installed" := by
  unfold savedUpdateOne
  dsimp only
  split
  · exact ⟨_, mem_dictUpsert_self _ _ _, updateEntry_state _ _ _ _⟩
  · split
    · exact ⟨_, mem_dictUpsert_self _ _ _, updateEntry_state _ _ _ _⟩
    · exact ⟨_, mem_dictUpsert_self _ _ _, updateEntry_state _ _ _ _⟩

theorem savedUpdateOne_keys (now : String) (sel req : List String)
    (saved : List (String × SavedEntry)) (kv : String × String)
    (a : String) (ha : a ∈ saved.map Prod.fst) :
    a ∈ (savedUpdateOne now sel req saved kv).map Prod.fst := by
  unfold savedUpdateOne
  dsimp only
  split
  · exact (keys_dictUpsert _ _ _ _).mpr (Or.inl ha)
  · split
    · exact (keys_dictUpsert _ _ _ _).mpr
        (Or.inl ((keys_dictUpsert _ _ _ _).mpr (Or.inl ha)))
    · exact (keys_dictUpsert _ _ _ _).mpr (Or.inl ha)

/-- A binding untouched by every pair of the first loop survives it. -/
theorem foldl_savedUpdate_preserves (now : String) (sel req : List String)
    (pairs : List (String × String)) (saved : List (String × SavedEntry))
    (p : String × SavedEntry) (hp : p ∈ saved)
    (h : ∀ q ∈ pairs, p.1 ≠ q.1 ∧ p.1 ≠ q.2) :
    p ∈ pairs.foldl (savedUpdateOne now sel req) saved := by
  induction pairs generalizing saved with
  | nil => exact hp
  | cons q rest ih =>
    simp only [List.foldl_cons]
    apply ih
    · exact savedUpdateOne_preserves now sel req saved q p hp
        (h q (List.mem_cons_self _ _)).1 (h q (List.mem_cons_self _ _)).2
    · intro r hr
      exact h r (List.mem_cons_of_mem _ hr)

theorem foldl_savedUpdate_keys (now : String) (sel req : List String)
    (pairs : List (String × String)) (saved : List (String × SavedEntry))
    (a : String) (ha : a ∈ saved.map Prod.fst) :
    a ∈ (pairs.foldl (savedUpdateOne now sel req) saved).map Prod.fst := by
  induction pairs generalizing saved with
  | nil => exact ha
  | cons q rest ih =>
    simp only [List.foldl_cons]
    exact ih _ (savedUpdateOne_keys now sel req saved q a ha)

/-- Every processed detected pair ends the first loop bound (under its
original casing) to an `installed` entry, provided the pairs have the
lower-index shape (`Nodup` lower keys, each value lowering to its key). -/
theorem foldl_savedUpdate_installed (now : String) (sel req : List String)
    (pairs : List (String × String)) (saved : List (String × SavedEntry))
    (hnd : (pairs.map Prod.fst).Nodup)
    (hlow : ∀ q ∈ pairs, pyLower q.2 = q.1) :
    ∀ q ∈ pairs, ∃ e, (q.2, e) ∈ pairs.foldl (savedUpdateOne now sel req) saved
      ∧ e.last_seen_state = "installed" := by
  induction pairs generalizing saved with
  | nil => intro q hq; cases hq
  | cons q0 rest ih =>
    intro q hq
    simp only [List.map_cons, List.nodup_cons] at hnd
    simp only [List.foldl_cons]
    rcases List.mem_cons.mp hq with rfl | hq'
    · obtain ⟨e, he, hst⟩ :=
        savedUpdateOne_installed now sel req saved q
      refine ⟨e, ?_, hst⟩
      apply foldl_savedUpdate_preserves
      · exact he
      · intro r hr
        have hrlow := hlow r (List.mem_cons_of_mem _ hr)
        have hqlow := hlow q (List.mem_cons_self _ _)
        have hr1 : r.1 ∈ rest.map Prod.fst := List.mem_map.mpr ⟨r, hr, rfl⟩
        constructor
        · intro hc
          have hc' : q.2 = r.1 := hc
          apply hnd.1
          rw [← hqlow, hc', ← hrlow, pyLower_idem, hrlow]
          exact hr1
        · intro hc
          have hc' : q.2 = r.2 := hc
          apply hnd.1
          rw [← hqlow, hc', hrlow]
          exact hr1
    · exact ih _ hnd.2 (fun r hr => hlow r (List.mem_cons_of_mem _ hr)) q hq'

theorem markMissing_keys (cd : List String) (saved : List (String × SavedEntry)) :
    (markMissing cd saved).map Prod.fst = saved.map Prod.fst := by
  unfold markMissing
  rw [List.map_map]
  apply List.map_congr_left
  intro kv _
  dsimp only [Function.comp]
  split_ifs <;> rfl

theorem markMissing_untouched (cd : List String)
    (saved : List (String × SavedEntry)) (p : String × SavedEntry)
    (hp : p ∈ saved) (hdet : cd.contains (pyLower p.1)) :
    p ∈ markMissing cd saved := by
  unfold markMissing
  refine List.mem_map.mpr ⟨p, hp, ?_⟩
  rw [if_pos hdet]

theorem markMissing_missing (cd : List String)
    (saved : List (String × SavedEntry)) (p : String × SavedEntry)
    (hp : p ∈ saved) (hdet : ¬ cd.contains (pyLower p.1)) :
    ∃ e, (p.1, e) ∈ markMissing cd saved ∧ e.last_seen_state = "missing"
      ∧ e.last_selected_at = p.2.last_selected_at
      ∧ e.first_saved_at = p.2.first_saved_at := by
  unfold markMissing
  refine ⟨{ p.2 with
      last_seen_state := "missing"
      priority := (if p.2.priority ∉ (["required", "optional"] : List String)
        then "optional" else p.2.priority) },
    List.mem_map.mpr ⟨p, hp, ?_⟩, rfl, rfl, rfl⟩
  dsimp only
  rw [if_neg hdet]

/-! ### Catalog-builder lemmas -/

/-- With a descriptor present, category `mcp` and a configuration block,
the builder forces the install to the redacted `mcp` dict and the
verification to `mcp_connect`. -/
theorem build_item_mcp_fields (name os h : String) (rec : Rec) (conf : JValue) :
    (build_item_from_recommendation name "mcp" os (some rec) (some conf) h).install =
      redact_value (.obj [("type", .str "mcp"), ("command", .str ""),
        ("config_snippet", conf)])
    ∧ (build_item_from_recommendation name "mcp" os (some rec) (some conf) h).verification =
      { type_ := "mcp_connect", test_command := some ("Use MCP: " ++ name) } := by
  unfold build_item_from_recommendation
  dsimp only
  split_ifs with h1 h2
  · exact absurd h2.1 (by decide)
  · exact ⟨rfl, rfl⟩
  · exact absurd ⟨rfl, rfl⟩ h1
  · exact absurd ⟨rfl, rfl⟩ h1

/-! ### Id-shape lemmas for snapshot uniqueness -/

theorem slug_chars (l : List Char) :
    (∀ c ∈ slugReplace l, slugAllowed c ∨ c = '-')
    ∧ (∀ c ∈ slugSkip l, slugAllowed c ∨ c = '-') := by
  induction l with
  | nil => constructor <;> (intro c hc; simp [slugReplace, slugSkip] at hc)
  | cons a t ih =>
    constructor
    · intro c hc
      rw [slugReplace] at hc
      split at hc
      · rcases List.mem_cons.mp hc with rfl | h
        · left; assumption
        · exact ih.1 c h
      · rcases List.mem_cons.mp hc with rfl | h
        · right; rfl
        · exact ih.2 c h
    · intro c hc
      rw [slugSkip] at hc
      split at hc
      · rcases List.mem_cons.mp hc with rfl | h
        · left; assumption
        · exact ih.1 c h
      · exact ih.2 c hc

theorem mem_stripDashes {c : Char} {s : String} (h : c ∈ (stripDashes s).data) :
    c ∈ s.data := by
  unfold stripDashes at h
  simp only [List.mem_reverse] at h
  have h1 := List.dropWhile_subset _ h
  rw [List.mem_reverse] at h1
  exact List.dropWhile_subset _ h1

theorem slugify_chars {c : Char} {s : String} (h : c ∈ (slugify s).data) :
    slugAllowed c ∨ c = '-' := by
  unfold slugify at h
  have h1 := mem_stripDashes h
  exact (slug_chars _).1 c h1

theorem slugify_no_colon {s : String} : ∀ c ∈ (slugify s).data, c ≠ ':' := by
  intro c hc
  rcases slugify_chars hc with h | h
  · intro he; subst he; exact absurd h (by decide)
  · intro he; subst he; exact absurd h (by decide)

theorem takeWhile_append_colon (l rest : List Char) (h : ∀ c ∈ l, c ≠ ':') :
    (l ++ ':' :: rest).takeWhile (fun c => ¬ c = ':') = l := by
  induction l with
  | nil => simp [List.takeWhile]
  | cons a t ih =>
    have ha : ¬ a = ':' := h a (List.mem_cons_self _ _)
    simp only [List.cons_append, List.takeWhile_cons]
    rw [if_pos (by simpa using ha)]
    rw [ih (fun c hc => h c (List.mem_cons_of_mem _ hc))]

theorem dropWhile_append_colon (l rest : List Char) (h : ∀ c ∈ l, c ≠ ':') :
    (l ++ ':' :: rest).dropWhile (fun c => ¬ c = ':') = ':' :: rest := by
  induction l with
  | nil => simp [List.dropWhile]
  | cons a t ih =>
    have ha : ¬ a = ':' := h a (List.mem_cons_self _ _)
    simp only [List.cons_append, List.dropWhile_cons]
    rw [if_pos (by simpa using ha)]
    exact ih (fun c hc => h c (List.mem_cons_of_mem _ hc))

theorem takeWhile_no_colon (l : List Char) (h : ∀ c ∈ l, c ≠ ':') :
    l.takeWhile (fun c => ¬ c = ':') = l :=
  List.takeWhile_eq_self_iff.mpr (by
    intro c hc
    simpa using h c hc)

/-- Both components of every generated item id, independent of the
fingerprint branch taken. -/
theorem pair_item_id (cat n fp : String) (hcat : ∀ c ∈ cat.data, c ≠ ':') :
    idCat (item_id cat n fp) = cat.data
    ∧ idSlug (item_id cat n fp) = (slugify n).data := by
  unfold item_id idCat idSlug
  dsimp only
  split
  · have hdata : ((cat ++ ":" ++ slugify n ++ ":" ++ (⟨fp.data.take 8⟩ : String)).data)
        = cat.data ++ ':' :: ((slugify n).data ++ ':' :: fp.data.take 8) := by
      simp [String.data_append]
    rw [hdata]
    refine ⟨takeWhile_append_colon _ _ hcat, ?_⟩
    rw [dropWhile_append_colon _ _ hcat]
    simp only [List.drop_succ_cons, List.drop_zero]
    exact takeWhile_append_colon _ _ (slugify_no_colon)
  · have hdata : ((cat ++ ":" ++ slugify n).data)
        = cat.data ++ ':' :: (slugify n).data := by
      simp [String.data_append]
    rw [hdata]
    refine ⟨takeWhile_append_colon _ _ hcat, ?_⟩
    rw [dropWhile_append_colon _ _ hcat]
    simp only [List.drop_succ_cons, List.drop_zero]
    exact takeWhile_no_colon _ (slugify_no_colon)

/-- `Nodup` of a join of per-category blocks, each tagging its slugs with a
distinct category. -/
theorem nodup_join_tagged (blocks : List (List Char × List (List Char)))
    (hcats : (blocks.map Prod.fst).Nodup)
    (hbs : ∀ b ∈ blocks, b.2.Nodup) :
    ((blocks.map (fun b => b.2.map (fun x => (b.1, x)))).flatten).Nodup := by
  induction blocks with
  | nil => simp
  | cons b bs ih =>
    simp only [List.map_cons, List.flatten_cons]
    simp only [List.map_cons, List.nodup_cons] at hcats
    apply List.Nodup.append
    · exact List.Nodup.map
        (fun x y hxy => by simpa using congrArg Prod.snd hxy)
        (hbs b (List.mem_cons_self _ _))
    · exact ih hcats.2 (fun b' hb' => hbs b' (List.mem_cons_of_mem _ hb'))
    · intro p hp hq
      obtain ⟨x, _, rfl⟩ := List.mem_map.mp hp
      obtain ⟨l', hl', hpl⟩ := List.mem_flatten.mp hq
      obtain ⟨b', hb', rfl⟩ := List.mem_map.mp hl'
      obtain ⟨y, _, hxy⟩ := List.mem_map.mp hpl
      apply hcats.1
      have : b.1 = b'.1 := by simpa using (congrArg Prod.fst hxy).symm
      rw [this]
      exact List.mem_map.mpr ⟨b', hb', rfl⟩

theorem data_injective : Function.Injective String.data := by
  intro a b h
  cases a; cases b; cases h; rfl

/-- The id of a built item is the generated `item_id` (with the fingerprint
when a descriptor exists, without it on the manual fallback); in both cases
its category and slug components are `cat` and `slugify n`. -/
theorem pair_build_item (n cat os : String) (rec : Option Rec)
    (conf : Option JValue) (h : String) (hcat : ∀ c ∈ cat.data, c ≠ ':') :
    idCat (build_item_from_recommendation n cat os rec conf h).id = cat.data
    ∧ idSlug (build_item_from_recommendation n cat os rec conf h).id =
        (slugify n).data := by
  cases rec with
  | none => exact pair_item_id cat n "" hcat
  | some r => exact pair_item_id cat n h hcat

theorem snapshotOverride_id (t : List String) (it : ProfileItem) :
    (snapshotOverride t it).id = it.id := rfl

theorem snapshotOverride_os (t : List String) (it : ProfileItem) :
    (snapshotOverride t it).os_support = it.os_support := rfl

theorem snapshotOverride_priority (t : List String) (it : ProfileItem) :
    (snapshotOverride t it).priority = "required"
    ∨ (snapshotOverride t it).priority = "optional" := by
  unfold snapshotOverride
  dsimp only
  split_ifs
  · left; rfl
  · right; rfl

theorem pySorted_ne_nil (l : List String) (h : ¬ l.isEmpty) :
    pySorted l ≠ [] := by
  intro hc
  apply h
  have hlen := (List.perm_insertionSort (fun a b => pyLeB a b) l).length_eq
  unfold pySorted at hc
  rw [hc] at hlen
  cases l
  · rfl
  · simp at hlen

theorem infer_os_support_ne_nil (rec : Rec) (cat os : String) :
    infer_os_support rec cat os ≠ [] := by
  unfold infer_os_support
  dsimp only
  generalize ((if isInfixCL "mac".data
        (String.intercalate " " (rec.prerequisites.map pyLower)).data then ["macos"] else [])
      ++ (if isInfixCL "linux".data
        (String.intercalate " " (rec.prerequisites.map pyLower)).data then ["linux"] else [])
      ++ (if isInfixCL "windows".data
        (String.intercalate " " (rec.prerequisites.map pyLower)).data then ["windows"] else [])) = sup
  by_cases h1 : sup.isEmpty
  · rw [if_neg (by simpa using h1)]
    by_cases h2 : cat = "application"
    · rw [if_pos h2]
      simp
    · rw [if_neg h2]
      decide
  · rw [if_pos (by simpa using h1)]
    exact pySorted_ne_nil sup h1

theorem manual_item_os_ne_nil (n cat os note : String) :
    (manual_item n cat os note).os_support ≠ [] := by
  unfold manual_item
  dsimp only
  split_ifs
  · simp
  · decide

theorem build_item_os_ne_nil (n cat os : String) (rec : Option Rec)
    (conf : Option JValue) (h : String) :
    (build_item_from_recommendation n cat os rec conf h).os_support ≠ [] := by
  cases rec with
  | none => exact manual_item_os_ne_nil n cat os ""
  | some r => exact infer_os_support_ne_nil r cat os

theorem manual_item_pair (n cat os note : String)
    (hcat : ∀ c ∈ cat.data, c ≠ ':') :
    idCat (manual_item n cat os note).id = cat.data
    ∧ idSlug (manual_item n cat os note).id = (slugify n).data :=
  pair_item_id cat n "" hcat

/-- Every item of the merged catalog has a non-empty `os_support`. -/
theorem merged_os_ne_nil (inp : DetectInputs) (systemName : String) :
    (∀ x ∈ (merge_detected_context inp systemName).mcps, x.os_support ≠ [])
    ∧ (∀ x ∈ (merge_detected_context inp systemName).cli_tools, x.os_support ≠ [])
    ∧ (∀ x ∈ (merge_detected_context inp systemName).skills, x.os_support ≠ [])
    ∧ (∀ x ∈ (merge_detected_context inp systemName).applications, x.os_support ≠ [])
    ∧ (∀ x ∈ (merge_detected_context inp systemName).plugins, x.os_support ≠ [])
    ∧ (∀ x ∈ (merge_detected_context inp systemName).workflow_patterns, x.os_support ≠ [])
    ∧ (∀ x ∈ (merge_detected_context inp systemName).model_preferences, x.os_support ≠ []) := by
  refine ⟨?_, ?_, ?_, ?_, ?_, ?_, ?_⟩ <;> intro x hx
  · obtain ⟨n, _, rfl⟩ := List.mem_map.mp hx
    exact build_item_os_ne_nil _ _ _ _ _ _
  · obtain ⟨n, _, rfl⟩ := List.mem_map.mp hx
    exact build_item_os_ne_nil _ _ _ _ _ _
  · obtain ⟨sk, _, rfl⟩ := List.mem_map.mp hx
    dsimp only
    rcases List.lookup (pyLower sk.name) inp.recommendations with _ | r <;>
      · dsimp only
        exact build_item_os_ne_nil _ _ _ _ _ _
  · obtain ⟨n, _, rfl⟩ := List.mem_map.mp hx
    exact build_item_os_ne_nil _ _ _ _ _ _
  · obtain ⟨n, _, rfl⟩ := List.mem_map.mp hx
    exact build_item_os_ne_nil _ _ _ _ _ _
  · obtain ⟨pn, _, rfl⟩ := List.mem_map.mp hx
    dsimp only
    rcases List.lookup (pyLower pn) inp.recommendations with _ | r
    · exact manual_item_os_ne_nil _ _ _ _
    · exact build_item_os_ne_nil _ _ _ _ _ _
  · obtain ⟨mp, _, rfl⟩ := List.mem_map.mp hx
    dsimp only
    exact manual_item_os_ne_nil _ _ _ _

/-- Id components of every merged-catalog list: the category constant
paired with the slug of the detected name. -/
theorem merged_pairs (inp : DetectInputs) (systemName : String) :
    ((merge_detected_context inp systemName).mcps.map (fun i => (idCat i.id, idSlug i.id)) =
      (((pySorted inp.mcps).map slugify).map String.data).map
        (fun x => (("mcp" : String).data, x)))
    ∧ ((merge_detected_context inp systemName).cli_tools.map (fun i => (idCat i.id, idSlug i.id)) =
      (((pySorted inp.cli_tools).map slugify).map String.data).map
        (fun x => (("cli-tool" : String).data, x)))
    ∧ ((merge_detected_context inp systemName).skills.map (fun i => (idCat i.id, idSlug i.id)) =
      ((inp.skills.map (fun s => slugify s.name)).map String.data).map
        (fun x => (("skill" : String).data, x)))
    ∧ ((merge_detected_context inp systemName).plugins.map (fun i => (idCat i.id, idSlug i.id)) =
      (((pySorted inp.plugins).map slugify).map String.data).map
        (fun x => (("plugin" : String).data, x)))
    ∧ ((merge_detected_context inp systemName).workflow_patterns.map
        (fun i => (idCat i.id, idSlug i.id)) =
      (((detect_workflow_patterns inp.has_hooks inp.has_tests inp.has_agent_docs
          inp.cli_tools).map slugify).map String.data).map
        (fun x => (("workflow-pattern" : String).data, x)))
    ∧ ((merge_detected_context inp systemName).model_preferences.map
        (fun i => (idCat i.id, idSlug i.id)) =
      ((inp.model_preferences.map (fun mp => slugify mp.1)).map String.data).map
        (fun x => (("model-preference" : String).data, x))) := by
  refine ⟨?_, ?_, ?_, ?_, ?_, ?_⟩
  · show ((pySorted inp.mcps).map _).map _ = _
    rw [List.map_map, List.map_map, List.map_map]
    apply List.map_congr_left
    intro n _
    have h := pair_build_item n "mcp" (normalize_os (some inp.osRaw) systemName)
      (List.lookup (pyLower n) inp.recommendations)
      (List.lookup (pyLower n) inp.mcpConfigs) "" (by decide)
    exact Prod.ext h.1 h.2
  · show ((pySorted inp.cli_tools).map _).map _ = _
    rw [List.map_map, List.map_map, List.map_map]
    apply List.map_congr_left
    intro n _
    have h := pair_build_item n "cli-tool" (normalize_os (some inp.osRaw) systemName)
      (List.lookup (pyLower n) inp.recommendations) none "" (by decide)
    exact Prod.ext h.1 h.2
  · show (inp.skills.map _).map _ = _
    rw [List.map_map, List.map_map, List.map_map]
    apply List.map_congr_left
    intro sk _
    simp only [Function.comp_apply]
    rcases List.lookup (pyLower sk.name) inp.recommendations with _ | r
    · have h := pair_build_item sk.name "skill"
        (normalize_os (some inp.osRaw) systemName) none none sk.hash (by decide)
      exact Prod.ext h.1 h.2
    · have h := pair_build_item sk.name "skill"
        (normalize_os (some inp.osRaw) systemName) (some r) none sk.hash (by decide)
      exact Prod.ext h.1 h.2
  · show ((pySorted inp.plugins).map _).map _ = _
    rw [List.map_map, List.map_map, List.map_map]
    apply List.map_congr_left
    intro n _
    have h := pair_build_item n "plugin" (normalize_os (some inp.osRaw) systemName)
      (List.lookup (pyLower n) inp.recommendations) none "" (by decide)
    exact Prod.ext h.1 h.2
  · show ((detect_workflow_patterns _ _ _ _).map _).map _ = _
    rw [List.map_map, List.map_map, List.map_map]
    apply List.map_congr_left
    intro pn _
    simp only [Function.comp_apply]
    rcases List.lookup (pyLower pn) inp.recommendations with _ | r
    · have h := manual_item_pair pn "workflow-pattern"
        (normalize_os (some inp.osRaw) systemName) "Document and apply manually" (by decide)
      exact Prod.ext h.1 h.2
    · have h := pair_build_item pn "workflow-pattern"
        (normalize_os (some inp.osRaw) systemName) (some r) none "" (by decide)
      exact Prod.ext h.1 h.2
  · show (inp.model_preferences.map _).map _ = _
    rw [List.map_map, List.map_map, List.map_map]
    apply List.map_congr_left
    intro mp _
    have h := manual_item_pair mp.1 "model-preference"
      (normalize_os (some inp.osRaw) systemName) "Set model preference manually" (by decide)
    exact Prod.ext h.1 h.2

/-- The application-category items of the merged catalog. -/
theorem merged_applications_eq (inp : DetectInputs) (systemName : String) :
    (merge_detected_context inp systemName).applications =
      (pySorted inp.applications).map (fun n =>
        build_item_from_recommendation n "application"
          (normalize_os (some inp.osRaw) systemName)
          (List.lookup (pyLower n) inp.recommendations)) := rfl

theorem wp_slug_nodup (h t a : Bool) (cli : List String) :
    ((detect_workflow_patterns h t a cli).map slugify).Nodup := by
  unfold detect_workflow_patterns
  rcases h <;> rcases t <;> rcases a <;>
    rcases hb : (cli.map pyLower).contains "beads" <;>
      simp only [hb] <;> decide

/-- Core of the snapshot id-uniqueness argument: with per-category
slug-distinct detected names, the seven override-mapped segments (the
application segment filtered by an arbitrary selection predicate) carry
pairwise distinct ids. -/
theorem snapshot_ids_nodup_core (inp : DetectInputs) (systemName : String)
    (P : ProfileItem → Bool) (t : List String)
    (h1 : (inp.mcps.map slugify).Nodup)
    (h2 : (inp.cli_tools.map slugify).Nodup)
    (h3 : (inp.skills.map (fun s => slugify s.name)).Nodup)
    (h4 : (inp.applications.map slugify).Nodup)
    (h5 : (inp.plugins.map slugify).Nodup)
    (h6 : (inp.model_preferences.map (fun mp => slugify mp.1)).Nodup) :
    ((((merge_detected_context inp systemName).mcps.map (snapshotOverride t))
      ++ ((merge_detected_context inp systemName).cli_tools.map (snapshotOverride t))
      ++ ((merge_detected_context inp systemName).skills.map (snapshotOverride t))
      ++ (((merge_detected_context inp systemName).applications.filter P).map
          (snapshotOverride t))
      ++ ((merge_detected_context inp systemName).plugins.map (snapshotOverride t))
      ++ ((merge_detected_context inp systemName).workflow_patterns.map (snapshotOverride t))
      ++ ((merge_detected_context inp systemName).model_preferences.map
          (snapshotOverride t))).map
        (fun i => (idCat i.id, idSlug i.id))).Nodup := by
  have hperm : ∀ l : List String,
      (((pySorted l).map slugify).map String.data).Nodup ↔
        ((l.map slugify).map String.data).Nodup := by
    intro l
    exact List.Perm.nodup_iff
      (((List.perm_insertionSort (fun a b => pyLeB a b) l).map slugify).map String.data)
  simp only [List.map_append, List.map_map]
  show ((((merge_detected_context inp systemName).mcps.map (fun i => (idCat i.id, idSlug i.id)))
      ++ ((merge_detected_context inp systemName).cli_tools.map (fun i => (idCat i.id, idSlug i.id)))
      ++ ((merge_detected_context inp systemName).skills.map (fun i => (idCat i.id, idSlug i.id)))
      ++ (((merge_detected_context inp systemName).applications.filter P).map
          (fun i => (idCat i.id, idSlug i.id)))
      ++ ((merge_detected_context inp systemName).plugins.map (fun i => (idCat i.id, idSlug i.id)))
      ++ ((merge_detected_context inp systemName).workflow_patterns.map
          (fun i => (idCat i.id, idSlug i.id)))
      ++ ((merge_detected_context inp systemName).model_preferences.map
          (fun i => (idCat i.id, idSlug i.id))))).Nodup
  obtain ⟨e1, e2, e3, e5, e6, e7⟩ := merged_pairs inp systemName
  rw [e1, e2, e3, e5, e6, e7]
  have e4 : ((merge_detected_context inp systemName).applications.filter P).map
      (fun i => (idCat i.id, idSlug i.id)) =
      ((((pySorted inp.applications).filter (fun n => P
          (build_item_from_recommendation n "application"
            (normalize_os (some inp.osRaw) systemName)
            (List.lookup (pyLower n) inp.recommendations)))).map slugify).map
        String.data).map (fun x => (("application" : String).data, x)) := by
    rw [merged_applications_eq, List.filter_map, List.map_map, List.map_map, List.map_map]
    apply List.map_congr_left
    intro n _
    have h := pair_build_item n "application" (normalize_os (some inp.osRaw) systemName)
      (List.lookup (pyLower n) inp.recommendations) none "" (by decide)
    exact Prod.ext h.1 h.2
  rw [e4]
  have hjoin := nodup_join_tagged
    [(("mcp" : String).data, ((pySorted inp.mcps).map slugify).map String.data),
     (("cli-tool" : String).data, ((pySorted inp.cli_tools).map slugify).map String.data),
     (("skill" : String).data, (inp.skills.map (fun s => slugify s.name)).map String.data),
     (("application" : String).data,
       (((pySorted inp.applications).filter (fun n => P
          (build_item_from_recommendation n "application"
            (normalize_os (some inp.osRaw) systemName)
            (List.lookup (pyLower n) inp.recommendations)))).map slugify).map String.data),
     (("plugin" : String).data, ((pySorted inp.plugins).map slugify).map String.data),
     (("workflow-pattern" : String).data,
       ((detect_workflow_patterns inp.has_hooks inp.has_tests inp.has_agent_docs
          inp.cli_tools).map slugify).map String.data),
     (("model-preference" : String).data,
       (inp.model_preferences.map (fun mp => slugify mp.1)).map String.data)]
    (by simp only [List.map_cons, List.map_nil]; decide) ?_
  · simpa using hjoin
  · intro b hb
    simp only [List.mem_cons, List.not_mem_nil, or_false] at hb
    rcases hb with rfl | rfl | rfl | rfl | rfl | rfl | rfl
    · exact (hperm _).mpr (h1.map data_injective)
    · exact (hperm _).mpr (h2.map data_injective)
    · exact (h3.map data_injective)
    · dsimp only
      refine List.Nodup.sublist ?_ ((hperm inp.applications).mpr (h4.map data_injective))
      exact ((List.filter_sublist _).map slugify).map String.data
    · exact (hperm _).mpr (h5.map data_injective)
    · exact ((wp_slug_nodup _ _ _ _).map data_injective)
    · exact (h6.map data_injective)

/-- Every item of the seven override-mapped segments (the application one
filtered) is the override of an item of one of the seven lists. -/
theorem override_append_decomp (t : List String)
    (l1 l2 l3 l4 l5 l6 l7 : List ProfileItem) (P : ProfileItem → Bool) :
    ∀ it ∈ (l1.map (snapshotOverride t) ++ l2.map (snapshotOverride t)
        ++ l3.map (snapshotOverride t) ++ ((l4.filter P).map (snapshotOverride t))
        ++ l5.map (snapshotOverride t) ++ l6.map (snapshotOverride t)
        ++ l7.map (snapshotOverride t)),
      ∃ x, (x ∈ l1 ∨ x ∈ l2 ∨ x ∈ l3 ∨ x ∈ l4 ∨ x ∈ l5 ∨ x ∈ l6 ∨ x ∈ l7)
        ∧ it = snapshotOverride t x := by
  intro it hit
  rcases List.mem_append.mp hit with h6 | hmap7
  · rcases List.mem_append.mp h6 with h5 | hmap6
    · rcases List.mem_append.mp h5 with h4 | hmap5
      · rcases List.mem_append.mp h4 with h3 | hmap4
        · rcases List.mem_append.mp h3 with h2 | hmap3
          · rcases List.mem_append.mp h2 with hmap1 | hmap2
            · obtain ⟨x, hx, rfl⟩ := List.mem_map.mp hmap1
              exact ⟨x, Or.inl hx, rfl⟩
            · obtain ⟨x, hx, rfl⟩ := List.mem_map.mp hmap2
              exact ⟨x, Or.inr (Or.inl hx), rfl⟩
          · obtain ⟨x, hx, rfl⟩ := List.mem_map.mp hmap3
            exact ⟨x, Or.inr (Or.inr (Or.inl hx)), rfl⟩
        · obtain ⟨x, hx, rfl⟩ := List.mem_map.mp hmap4
          exact ⟨x, Or.inr (Or.inr (Or.inr (Or.inl (List.mem_filter.mp hx).1))), rfl⟩
      · obtain ⟨x, hx, rfl⟩ := List.mem_map.mp hmap5
        exact ⟨x, Or.inr (Or.inr (Or.inr (Or.inr (Or.inl hx)))), rfl⟩
    · obtain ⟨x, hx, rfl⟩ := List.mem_map.mp hmap6
      exact ⟨x, Or.inr (Or.inr (Or.inr (Or.inr (Or.inr (Or.inl hx))))), rfl⟩
  · obtain ⟨x, hx, rfl⟩ := List.mem_map.mp hmap7
    exact ⟨x, Or.inr (Or.inr (Or.inr (Or.inr (Or.inr (Or.inr hx))))), rfl⟩

/-- The item list of a built snapshot is the seven-segment append of the
override-mapped merged-catalog lists, the application segment filtered by
the include-apps selection predicate. -/
theorem snapshot_items_eq (merged : MergedContext) (sna : List String) (inc : Bool)
    (sim req : List String) (pn sys2 : String) :
    (build_profile_snapshot merged sna inc sim req pn sys2).1.items =
      merged.mcps.map (snapshotOverride (req.map pyLower))
      ++ merged.cli_tools.map (snapshotOverride (req.map pyLower))
      ++ merged.skills.map (snapshotOverride (req.map pyLower))
      ++ ((merged.applications.filter (fun it =>
            (((snapshotIncludeApps merged sna inc sim).1.map Prod.fst).contains
              (pyLower it.name)))).map (snapshotOverride (req.map pyLower)))
      ++ merged.plugins.map (snapshotOverride (req.map pyLower))
      ++ merged.workflow_patterns.map (snapshotOverride (req.map pyLower))
      ++ merged.model_preferences.map (snapshotOverride (req.map pyLower)) := rfl

/-! ### Counting lemmas for the snapshot builder -/

theorem filter_length_compl {α : Type} (p : α → Bool) (l : List α) :
    (l.filter p).length + (l.filter (fun a => ¬ p a)).length = l.length := by
  induction l with
  | nil => rfl
  | cons a t ih =>
    by_cases h : p a = true
    · simp [List.filter_cons, h, ← ih]
      omega
    · simp [List.filter_cons, h, ← ih]
      omega

theorem sum_dictUpsert_inc (acc : List (String × Nat)) (k : String) :
    ((dictUpsert acc k (((acc.lookup k).getD 0) + 1)).map Prod.snd).sum =
      (acc.map Prod.snd).sum + 1 := by
  induction acc with
  | nil => simp [dictUpsert]
  | cons q rest ih =>
    obtain ⟨k', v'⟩ := q
    simp only [dictUpsert]
    by_cases h : k' = k
    · subst h
      simp [List.lookup]
      omega
    · rw [if_neg h]
      have hlk : List.lookup k ((k', v') :: rest) = List.lookup k rest := by
        have hbe : (k == k') = false := by
          simp [beq_iff_eq]
          intro hc
          exact h hc.symm
        simp [List.lookup, hbe]
      rw [hlk]
      simp only [List.map_cons, List.sum_cons, ih]
      omega

theorem tally_sum_aux (items : List ProfileItem) :
    ∀ acc : List (String × Nat),
      ((items.foldl (fun acc it =>
        dictUpsert acc it.category (((acc.lookup it.category).getD 0) + 1)) acc).map
          Prod.snd).sum = (acc.map Prod.snd).sum + items.length := by
  induction items with
  | nil => intro acc; simp
  | cons it rest ih =>
    intro acc
    simp only [List.foldl_cons, List.length_cons]
    rw [ih, sum_dictUpsert_inc]
    omega

theorem tally_sum (items : List ProfileItem) :
    ((tallyByCategory items).map Prod.snd).sum = items.length := by
  unfold tallyByCategory
  rw [tally_sum_aux]
  simp

/-- Unfolding the `saved_installed` bucket to its pre-sort form. -/
theorem selection_si_mem (detected_apps savedKeys : List String) (x : String) :
    x ∈ (compute_application_selection detected_apps savedKeys).saved_installed ↔
      ∃ p ∈ (lowerIndex detected_apps).filter
        (fun kv => ((lowerIndex (pySorted savedKeys)).map Prod.fst).contains kv.1),
        p.2 = x := by
  unfold compute_application_selection
  dsimp only
  rw [mem_pySorted, List.mem_map]

/-- Unfolding the `new_candidates` bucket to its pre-sort form. -/
theorem selection_nc_mem (detected_apps savedKeys : List String) (x : String) :
    x ∈ (compute_application_selection detected_apps savedKeys).new_candidates ↔
      ∃ p ∈ (lowerIndex detected_apps).filter
        (fun kv => ¬ ((lowerIndex (pySorted savedKeys)).map Prod.fst).contains kv.1),
        p.2 = x := by
  unfold compute_application_selection
  dsimp only
  rw [mem_pySorted, List.mem_map]

/-- Unfolding the `saved_missing` bucket to its pre-sort form. -/
theorem selection_sm_mem (detected_apps savedKeys : List String) (x : String) :
    x ∈ (compute_application_selection detected_apps savedKeys).saved_missing ↔
      ∃ p ∈ (lowerIndex (pySorted savedKeys)).filter
        (fun kv => ¬ ((lowerIndex detected_apps).map Prod.fst).contains kv.1),
        p.2 = x := by
  unfold compute_application_selection
  dsimp only
  rw [mem_pySorted, List.mem_map]

end ProfileManager

/-- C10: for every input string (including empty and unrecognized ones) and
every host platform, `normalize_os` returns one of exactly `macos`, `linux`,
`windows`; the recognized aliases map to their canonical value independently
of the host, and any other string falls back to the canonicalized OS of the
machine running the program (`hostFallback`) rather than raising an error. -/
theorem C10_normalize_os_total_aliases_fallback :
    (∀ raw systemName, ProfileManager.normalize_os raw systemName ∈ ProfileManager.ALL_OSES)
    ∧ (∀ systemName,
        ProfileManager.normalize_os (some "darwin") systemName = "macos"
        ∧ ProfileManager.normalize_os (some "mac") systemName = "macos"
        ∧ ProfileManager.normalize_os (some "osx") systemName = "macos"
        ∧ ProfileManager.normalize_os (some "macos") systemName = "macos"
        ∧ ProfileManager.normalize_os (some "linux") systemName = "linux"
        ∧ ProfileManager.normalize_os (some "windows") systemName = "windows"
        ∧ ProfileManager.normalize_os (some "win32") systemName = "windows"
        ∧ ProfileManager.normalize_os (some "cygwin") systemName = "windows"
        ∧ ProfileManager.normalize_os (some "msys") systemName = "windows")
    ∧ (∀ raw systemName,
        ProfileManager.pyLower (ProfileManager.pyStrip (raw.getD ""))
            ∉ ProfileManager.recognizedOsAliases →
        ProfileManager.normalize_os raw systemName = ProfileManager.hostFallback systemName) := by
  refine ⟨ProfileManager.normalize_os_mem, ?_, ?_⟩
  · intro systemName
    exact ⟨ProfileManager.normalize_os_alias_macos _ (by decide) _,
      ProfileManager.normalize_os_alias_macos _ (by decide) _,
      ProfileManager.normalize_os_alias_macos _ (by decide) _,
      ProfileManager.normalize_os_alias_macos _ (by decide) _,
      ProfileManager.normalize_os_alias_linux _ (by decide) (by decide) _,
      ProfileManager.normalize_os_alias_windows _ (by decide) (by decide) (by decide) _,
      ProfileManager.normalize_os_alias_windows _ (by decide) (by decide) (by decide) _,
      ProfileManager.normalize_os_alias_windows _ (by decide) (by decide) (by decide) _,
      ProfileManager.normalize_os_alias_windows _ (by decide) (by decide) (by decide) _⟩
  · intro raw systemName h
    rw [ProfileManager.normalize_os_def, if_neg, if_neg, if_neg]
    · intro hc
      exact h (by simp [ProfileManager.recognizedOsAliases, hc])
    · intro hc
      exact h (by simp [ProfileManager.recognizedOsAliases, hc])
    · intro hc
      apply h
      simp only [List.mem_cons] at hc
      simp only [ProfileManager.recognizedOsAliases, List.mem_cons]
      tauto

/-- C10 witness: the unrecognized input `"freebsd"` on a `"Darwin"` host
falls back to `"macos"`, via the fallback clause of the theorem. -/
theorem C10_normalize_os_total_aliases_fallback_witness :
    ProfileManager.normalize_os (some "freebsd") "Darwin" = ProfileManager.hostFallback "Darwin" :=
  C10_normalize_os_total_aliases_fallback.2.2 (some "freebsd") "Darwin" (by decide)


/-- C2: import planning classifies every well-formed item of a foreign
snapshot into exactly one of the six buckets, applying the checks in the
fixed order (unsupported-OS first, then already-installed, then manual,
first match winning, priority splitting the last two buckets).  The loop
body equals the spec's fixed-order classifier `specClassify` together with
the annotation it determines — hence bucket membership is a pure function
of the item, the local OS and the installed-index (the host platform
parameter is irrelevant) — and an item's annotated copy belongs to bucket
`b` of the resulting plan exactly when its classification is `b`, so every
well-formed input item appears in exactly one bucket. -/
theorem C2_plan_import_partitions (items : List ProfileManager.PlanItem)
    (idx : List (String × List String)) (current_os systemName : String) :
    (∀ it : ProfileManager.PlanItem, it.WellFormed →
      ProfileManager.planStep idx current_os systemName it =
        (ProfileManager.specClassify it current_os idx,
          ⟨it, (ProfileManager.bucketAction current_os
                  (ProfileManager.specClassify it current_os idx)).1,
            (ProfileManager.bucketAction current_os
                  (ProfileManager.specClassify it current_os idx)).2⟩))
    ∧ (∀ it ∈ items, it.WellFormed → ∀ b : ProfileManager.BucketTag,
      ((ProfileManager.planStep idx current_os systemName it).2 ∈
        (ProfileManager.plan_import_actions items idx current_os systemName).bucket b
      ↔ ProfileManager.specClassify it current_os idx = b)) := by
  constructor
  · intro it hwf
    exact ProfileManager.planStep_eq idx current_os systemName it hwf
  · intro it hit hwf b
    rw [ProfileManager.plan_import_bucket_eq]
    constructor
    · intro hmem
      simp only [List.mem_map, List.mem_filter, List.mem_map] at hmem
      obtain ⟨⟨tag, ann⟩, ⟨⟨it', hit', heq⟩, htag⟩, hann⟩ := hmem
      have hitem : ann.item = it' := by
        have := ProfileManager.planStep_snd_item idx current_os systemName it'
        rw [heq] at this
        exact this
      have hitem2 : ann.item = it := by
        have h := ProfileManager.planStep_snd_item idx current_os systemName it
        rw [← hann] at h
        exact h
      have : it' = it := hitem.symm.trans hitem2
      subst this
      have hps := ProfileManager.planStep_eq idx current_os systemName it' hwf
      rw [hps] at heq
      have : tag = ProfileManager.specClassify it' current_os idx := by
        have := congrArg Prod.fst heq
        simpa using this.symm
      simp only [decide_eq_true_eq] at htag
      rw [← htag, this]
    · intro hb
      simp only [List.mem_map, List.mem_filter, List.mem_map]
      refine ⟨ProfileManager.planStep idx current_os systemName it, ⟨⟨it, hit, rfl⟩, ?_⟩, rfl⟩
      have hps := ProfileManager.planStep_eq idx current_os systemName it hwf
      rw [hps]
      simpa using hb

/-- C2 witness: a concrete well-formed `cli-tool` item named `fzf`, present
in the local `cli-tool` installed-index, is classified `alreadyInstalled`,
and its annotated copy sits in exactly that bucket of the plan. -/
theorem C2_plan_import_partitions_witness :
    let it : ProfileManager.PlanItem :=
      { name := "fzf", category := "cli-tool", priority := some "optional",
        os_support := some ["macos", "linux"], manual_only := false,
        install_type := some "package" }
    let idx : List (String × List String) := [("cli-tool", ["fzf"])]
    (ProfileManager.planStep idx "linux" "Linux" it).2 ∈
      (ProfileManager.plan_import_actions [it] idx "linux" "Linux").bucket
        .alreadyInstalled := by
  intro it idx
  exact ((C2_plan_import_partitions [it] idx "linux" "Linux").2 it
    (by simp) (by decide) .alreadyInstalled).mpr (by decide)

/-- C3: in the plan's `ordered_candidates` list, all `prompt_required`
items precede all `prompt_optional` items, which precede all
`manual_required` items, which precede all `manual_optional` items: the
list is exactly the concatenation of those four buckets in that fixed
sequence. -/
theorem C3_ordered_candidates_concat (items : List ProfileManager.PlanItem)
    (idx : List (String × List String)) (current_os systemName : String) :
    (ProfileManager.plan_import_actions items idx current_os systemName).ordered_candidates =
      (ProfileManager.plan_import_actions items idx current_os systemName).prompt_required
      ++ (ProfileManager.plan_import_actions items idx current_os systemName).prompt_optional
      ++ (ProfileManager.plan_import_actions items idx current_os systemName).manual_required
      ++ (ProfileManager.plan_import_actions items idx current_os systemName).manual_optional :=
  rfl

/-- C4: for every detected-applications list and saved-state document, the
selection reconciler's buckets satisfy: `saved_installed` and
`new_candidates` are disjoint (even case-insensitively); their union covers
every currently detected application exactly once (the lower-cased union is
duplicate-free, contains the lower-casing of every detected name, and every
member is a detected name); and `saved_missing` is case-insensitively
disjoint from both. -/
theorem C4_selection_partition (detected savedKeys : List String) :
    (∀ x ∈ (ProfileManager.compute_application_selection detected savedKeys).saved_installed,
      ∀ y ∈ (ProfileManager.compute_application_selection detected savedKeys).new_candidates,
        ProfileManager.pyLower x ≠ ProfileManager.pyLower y)
    ∧ (∀ x ∈ (ProfileManager.compute_application_selection detected savedKeys).saved_installed,
        x ∉ (ProfileManager.compute_application_selection detected savedKeys).new_candidates)
    ∧ (((ProfileManager.compute_application_selection detected savedKeys).saved_installed
        ++ (ProfileManager.compute_application_selection detected savedKeys).new_candidates).map
          ProfileManager.pyLower).Nodup
    ∧ (∀ a ∈ detected, ProfileManager.pyLower a ∈
        ((ProfileManager.compute_application_selection detected savedKeys).saved_installed
        ++ (ProfileManager.compute_application_selection detected savedKeys).new_candidates).map
          ProfileManager.pyLower)
    ∧ (∀ u ∈ (ProfileManager.compute_application_selection detected savedKeys).saved_installed
        ++ (ProfileManager.compute_application_selection detected savedKeys).new_candidates,
        u ∈ detected)
    ∧ (∀ y ∈ (ProfileManager.compute_application_selection detected savedKeys).saved_missing,
        ∀ u ∈ (ProfileManager.compute_application_selection detected savedKeys).saved_installed
          ++ (ProfileManager.compute_application_selection detected savedKeys).new_candidates,
        ProfileManager.pyLower y ≠ ProfileManager.pyLower u) := by
  have hD := ProfileManager.lowerIndex_nodup_keys detected
  -- case-insensitive disjointness of saved_installed and new_candidates
  have hcore : ∀ x ∈ (ProfileManager.compute_application_selection detected savedKeys).saved_installed,
      ∀ y ∈ (ProfileManager.compute_application_selection detected savedKeys).new_candidates,
        ProfileManager.pyLower x ≠ ProfileManager.pyLower y := by
    intro x hx y hy heq
    obtain ⟨p, hp, rfl⟩ := (ProfileManager.selection_si_mem detected savedKeys x).mp hx
    obtain ⟨q, hq, rfl⟩ := (ProfileManager.selection_nc_mem detected savedKeys y).mp hy
    have hpD := List.mem_filter.mp hp
    have hqD := List.mem_filter.mp hq
    have hp1 := (ProfileManager.lowerIndex_mem detected p hpD.1).1
    have hq1 := (ProfileManager.lowerIndex_mem detected q hqD.1).1
    have hk : p.1 = q.1 := by rw [← hp1, ← hq1, heq]
    have hpq : p = q :=
      ProfileManager.eq_of_mem_of_nodup_keys _ hD p q hpD.1 hqD.1 hk
    have h1 := hpD.2
    have h2 := hqD.2
    rw [hpq] at h1
    simp only [decide_eq_true_eq] at h1 h2
    exact h2 h1
  -- membership helper: every union member comes from the detected index
  have hunion : ∀ u ∈ (ProfileManager.compute_application_selection detected savedKeys).saved_installed
      ++ (ProfileManager.compute_application_selection detected savedKeys).new_candidates,
      ∃ p ∈ ProfileManager.lowerIndex detected, p.2 = u := by
    intro u hu
    rcases List.mem_append.mp hu with h | h
    · obtain ⟨p, hp, rfl⟩ := (ProfileManager.selection_si_mem detected savedKeys u).mp h
      exact ⟨p, (List.mem_filter.mp hp).1, rfl⟩
    · obtain ⟨p, hp, rfl⟩ := (ProfileManager.selection_nc_mem detected savedKeys u).mp h
      exact ⟨p, (List.mem_filter.mp hp).1, rfl⟩
  refine ⟨hcore, ?_, ?_, ?_, ?_, ?_⟩
  · intro x hx hx'
    exact hcore x hx x hx' rfl
  · -- Nodup of the lower-cased union
    have permA : ((ProfileManager.compute_application_selection detected savedKeys).saved_installed.map
        ProfileManager.pyLower).Perm
        (((ProfileManager.lowerIndex detected).filter
          (fun kv => ((ProfileManager.lowerIndex (ProfileManager.pySorted savedKeys)).map
            Prod.fst).contains kv.1)).map Prod.fst) := by
      have h1 : ((ProfileManager.compute_application_selection detected savedKeys).saved_installed.map
          ProfileManager.pyLower).Perm
          ((((ProfileManager.lowerIndex detected).filter
            (fun kv => ((ProfileManager.lowerIndex (ProfileManager.pySorted savedKeys)).map
              Prod.fst).contains kv.1)).map Prod.snd).map ProfileManager.pyLower) :=
        (List.perm_insertionSort _ _).map _
      refine h1.trans (List.Perm.of_eq ?_)
      rw [List.map_map]
      apply List.map_congr_left
      intro p hp
      exact (ProfileManager.lowerIndex_mem detected p (List.mem_filter.mp hp).1).1
    have permB : ((ProfileManager.compute_application_selection detected savedKeys).new_candidates.map
        ProfileManager.pyLower).Perm
        (((ProfileManager.lowerIndex detected).filter
          (fun kv => ¬ ((ProfileManager.lowerIndex (ProfileManager.pySorted savedKeys)).map
            Prod.fst).contains kv.1)).map Prod.fst) := by
      have h1 : ((ProfileManager.compute_application_selection detected savedKeys).new_candidates.map
          ProfileManager.pyLower).Perm
          ((((ProfileManager.lowerIndex detected).filter
            (fun kv => ¬ ((ProfileManager.lowerIndex (ProfileManager.pySorted savedKeys)).map
              Prod.fst).contains kv.1)).map Prod.snd).map ProfileManager.pyLower) :=
        (List.perm_insertionSort _ _).map _
      refine h1.trans (List.Perm.of_eq ?_)
      rw [List.map_map]
      apply List.map_congr_left
      intro p hp
      exact (ProfileManager.lowerIndex_mem detected p (List.mem_filter.mp hp).1).1
    have nR : ((((ProfileManager.lowerIndex detected).filter
          (fun kv => ((ProfileManager.lowerIndex (ProfileManager.pySorted savedKeys)).map
            Prod.fst).contains kv.1)).map Prod.fst)
        ++ (((ProfileManager.lowerIndex detected).filter
          (fun kv => ¬ ((ProfileManager.lowerIndex (ProfileManager.pySorted savedKeys)).map
            Prod.fst).contains kv.1)).map Prod.fst)).Nodup := by
      apply List.Nodup.append
      · exact ((List.filter_sublist _).map Prod.fst).nodup hD
      · exact ((List.filter_sublist _).map Prod.fst).nodup hD
      · intro a ha hb
        obtain ⟨p, hp, hpa⟩ := List.mem_map.mp ha
        obtain ⟨q, hq, hqa⟩ := List.mem_map.mp hb
        have hpD := List.mem_filter.mp hp
        have hqD := List.mem_filter.mp hq
        have hpq : p = q :=
          ProfileManager.eq_of_mem_of_nodup_keys _ hD p q hpD.1 hqD.1 (hpa.trans hqa.symm)
        have h1 := hpD.2
        have h2 := hqD.2
        rw [hpq] at h1
        simp only [decide_eq_true_eq] at h1 h2
        exact h2 h1
    rw [List.map_append]
    exact ((permA.append permB).nodup_iff).mpr nR
  · -- coverage of every detected application
    intro a ha
    obtain ⟨p, hpD, hpk⟩ :=
      List.mem_map.mp (ProfileManager.lowerIndex_covers detected a ha)
    have hp1 := (ProfileManager.lowerIndex_mem detected p hpD).1
    by_cases hP : ((ProfileManager.lowerIndex (ProfileManager.pySorted savedKeys)).map
        Prod.fst).contains p.1
    · have hmem : p.2 ∈ (ProfileManager.compute_application_selection detected savedKeys).saved_installed :=
        (ProfileManager.selection_si_mem detected savedKeys p.2).mpr
          ⟨p, List.mem_filter.mpr ⟨hpD, by simpa using hP⟩, rfl⟩
      exact List.mem_map.mpr ⟨p.2, List.mem_append_left _ hmem, by rw [hp1, hpk]⟩
    · have hmem : p.2 ∈ (ProfileManager.compute_application_selection detected savedKeys).new_candidates :=
        (ProfileManager.selection_nc_mem detected savedKeys p.2).mpr
          ⟨p, List.mem_filter.mpr ⟨hpD, by simpa using hP⟩, rfl⟩
      exact List.mem_map.mpr ⟨p.2, List.mem_append_right _ hmem, by rw [hp1, hpk]⟩
  · -- every union member is a detected name
    intro u hu
    obtain ⟨p, hpD, rfl⟩ := hunion u hu
    exact (ProfileManager.lowerIndex_mem detected p hpD).2
  · -- saved_missing is case-insensitively disjoint from the union
    intro y hy u hu heq
    obtain ⟨q, hq, rfl⟩ := (ProfileManager.selection_sm_mem detected savedKeys y).mp hy
    obtain ⟨p, hpD, rfl⟩ := hunion u hu
    have hqS := List.mem_filter.mp hq
    have hq1 := (ProfileManager.lowerIndex_mem _ q hqS.1).1
    have hp1 := (ProfileManager.lowerIndex_mem detected p hpD).1
    have h2 := hqS.2
    simp only [decide_eq_true_eq] at h2
    apply h2
    have : q.1 ∈ (ProfileManager.lowerIndex detected).map Prod.fst := by
      rw [← hq1, heq, hp1]
      exact List.mem_map.mpr ⟨p, hpD, rfl⟩
    simpa using this

/-- C4 witness: with detected `["Chrome", "Slack"]` and saved keys
`["chrome", "OldApp"]`, the saved-missing entry `OldApp` is (even
case-insensitively) distinct from the union member `Slack`. -/
theorem C4_selection_partition_witness :
    ProfileManager.pyLower "OldApp" ≠ ProfileManager.pyLower "Slack" :=
  (C4_selection_partition ["Chrome", "Slack"] ["chrome", "OldApp"]).2.2.2.2.2
    "OldApp" (by decide) "Slack" (by decide)

/-- C7: after `update_saved_app_state`, (1) every currently detected
application has an entry (under a key equal to it up to case) with
`last_seen_state = "installed"`; (2) no key of `saved_applications` is ever
removed; (3) every previously saved application not in the current
detection set keeps its entry but is marked `last_seen_state = "missing"`,
with its selection timestamps untouched; and (4) the per-entry refresh rule
of the first loop is: state forced to `installed`, `last_selected_at`
refreshed exactly when the app was included this run, and the priority set
to `required` exactly when requested, otherwise kept (an invalid stored
priority being coerced to `optional`). -/
theorem C7_update_saved_app_state_frame (saved : List (String × ProfileManager.SavedEntry))
    (now : String) (detected selected required : List String) :
    (∀ n ∈ detected, ∃ k e,
      (k, e) ∈ ProfileManager.update_saved_app_state saved now detected selected required
      ∧ ProfileManager.pyLower k = ProfileManager.pyLower n
      ∧ e.last_seen_state = "installed")
    ∧ (∀ a ∈ saved.map Prod.fst,
        a ∈ (ProfileManager.update_saved_app_state saved now detected selected required).map
          Prod.fst)
    ∧ (∀ p ∈ saved,
        ProfileManager.pyLower p.1 ∉ detected.map ProfileManager.pyLower →
        ∃ e, (p.1, e) ∈ ProfileManager.update_saved_app_state saved now detected selected required
          ∧ e.last_seen_state = "missing"
          ∧ e.last_selected_at = p.2.last_selected_at
          ∧ e.first_saved_at = p.2.first_saved_at)
    ∧ (∀ (e : ProfileManager.SavedEntry) (isSel isReq : Bool),
        (ProfileManager.updateEntry e now isSel isReq).last_seen_state = "installed"
        ∧ (ProfileManager.updateEntry e now isSel isReq).last_selected_at =
            (if isSel then now else e.last_selected_at)
        ∧ (ProfileManager.updateEntry e now isSel isReq).priority =
            (if isReq then "required"
             else if e.priority ∉ (["required", "optional"] : List String) then "optional"
             else e.priority)) := by
  have hkeysub : ∀ a ∈ (ProfileManager.lowerIndex detected).map Prod.fst,
      a ∈ detected.map ProfileManager.pyLower := by
    intro a ha
    obtain ⟨q, hq, rfl⟩ := List.mem_map.mp ha
    obtain ⟨h1, h2⟩ := ProfileManager.lowerIndex_mem detected q hq
    exact List.mem_map.mpr ⟨q.2, h2, h1⟩
  refine ⟨?_, ?_, ?_, ?_⟩
  · intro n hn
    obtain ⟨p, hpD, hpk⟩ :=
      List.mem_map.mp (ProfileManager.lowerIndex_covers detected n hn)
    obtain ⟨e, he, hst⟩ := ProfileManager.foldl_savedUpdate_installed now
      ((ProfileManager.lowerIndex selected).map Prod.fst) required
      (ProfileManager.lowerIndex detected) saved
      (ProfileManager.lowerIndex_nodup_keys detected)
      (fun q hq => (ProfileManager.lowerIndex_mem detected q hq).1) p hpD
    refine ⟨p.2, e, ?_, ?_, hst⟩
    · unfold ProfileManager.update_saved_app_state
      dsimp only
      apply ProfileManager.markMissing_untouched _ _ _ he
      show ((ProfileManager.lowerIndex detected).map Prod.fst).contains
        (ProfileManager.pyLower p.2) = true
      rw [(ProfileManager.lowerIndex_mem detected p hpD).1]
      exact List.elem_iff.mpr (List.mem_map.mpr ⟨p, hpD, rfl⟩)
    · rw [(ProfileManager.lowerIndex_mem detected p hpD).1, hpk]
  · intro a ha
    unfold ProfileManager.update_saved_app_state
    dsimp only
    rw [ProfileManager.markMissing_keys]
    exact ProfileManager.foldl_savedUpdate_keys now _ required _ saved a ha
  · intro p hp hnd
    have hpres : p ∈ (ProfileManager.lowerIndex detected).foldl
        (ProfileManager.savedUpdateOne now
          ((ProfileManager.lowerIndex selected).map Prod.fst) required) saved := by
      apply ProfileManager.foldl_savedUpdate_preserves _ _ _ _ _ p hp
      intro q hq
      obtain ⟨hq1, hq2⟩ := ProfileManager.lowerIndex_mem detected q hq
      constructor
      · intro hc
        apply hnd
        rw [hc, ← hq1, ProfileManager.pyLower_idem, hq1]
        exact hkeysub q.1 (List.mem_map.mpr ⟨q, hq, rfl⟩)
      · intro hc
        apply hnd
        rw [hc, hq1]
        exact hkeysub q.1 (List.mem_map.mpr ⟨q, hq, rfl⟩)
    have hdet : ¬ ((ProfileManager.lowerIndex detected).map Prod.fst).contains
        (ProfileManager.pyLower p.1) = true := by
      intro hc
      exact hnd (hkeysub _ (List.elem_iff.mp hc))
    obtain ⟨e, he, h1, h2, h3⟩ :=
      ProfileManager.markMissing_missing
        ((ProfileManager.lowerIndex detected).map Prod.fst) _ p hpres hdet
    exact ⟨e, he, h1, h2, h3⟩
  · intro e isSel isReq
    exact ⟨ProfileManager.updateEntry_state e now isSel isReq,
      ProfileManager.updateEntry_selected e now isSel isReq,
      ProfileManager.updateEntry_priority e now isSel isReq⟩

/-- C7 witness: with saved entry `OldApp` (previously installed, optional)
and only `Chrome` detected, the update keeps the `OldApp` entry, marks it
missing, and leaves its timestamps untouched. -/
theorem C7_update_saved_app_state_frame_witness :
    ∃ e, ("OldApp", e) ∈ ProfileManager.update_saved_app_state
        [("OldApp", ⟨"2024-01-01T00:00:00Z", "2024-01-02T00:00:00Z", "installed", "optional"⟩)]
        "2024-02-01T00:00:00Z" ["Chrome"] ["Chrome"] []
      ∧ e.last_seen_state = "missing"
      ∧ e.last_selected_at = "2024-01-02T00:00:00Z"
      ∧ e.first_saved_at = "2024-01-01T00:00:00Z" :=
  (C7_update_saved_app_state_frame
      [("OldApp", ⟨"2024-01-01T00:00:00Z", "2024-01-02T00:00:00Z", "installed", "optional"⟩)]
      "2024-02-01T00:00:00Z" ["Chrome"] ["Chrome"] []).2.2.1
    ("OldApp", ⟨"2024-01-01T00:00:00Z", "2024-01-02T00:00:00Z", "installed", "optional"⟩)
    (by decide) (by decide)

/-- C8: in every built snapshot, `counts.total` equals the length of the
item list, `counts.required + counts.optional = counts.total`, and the
`by_category` counts sum to `counts.total` — all derived in a single pass
over the final item list. -/
theorem C8_snapshot_counts_consistent (merged : ProfileManager.MergedContext)
    (selected_new_apps : List String) (include_saved_apps : Bool)
    (include_saved_missing_apps required_items : List String)
    (profile_name systemName : String) :
    ((ProfileManager.build_profile_snapshot merged selected_new_apps include_saved_apps
        include_saved_missing_apps required_items profile_name systemName).1.counts.total =
      (ProfileManager.build_profile_snapshot merged selected_new_apps include_saved_apps
        include_saved_missing_apps required_items profile_name systemName).1.items.length)
    ∧ ((ProfileManager.build_profile_snapshot merged selected_new_apps include_saved_apps
        include_saved_missing_apps required_items profile_name systemName).1.counts.required
      + (ProfileManager.build_profile_snapshot merged selected_new_apps include_saved_apps
        include_saved_missing_apps required_items profile_name systemName).1.counts.optional =
      (ProfileManager.build_profile_snapshot merged selected_new_apps include_saved_apps
        include_saved_missing_apps required_items profile_name systemName).1.counts.total)
    ∧ (((ProfileManager.build_profile_snapshot merged selected_new_apps include_saved_apps
        include_saved_missing_apps required_items profile_name systemName).1.counts.by_category).map
          Prod.snd).sum =
      (ProfileManager.build_profile_snapshot merged selected_new_apps include_saved_apps
        include_saved_missing_apps required_items profile_name systemName).1.counts.total := by
  refine ⟨rfl, ?_, ?_⟩
  · show ((ProfileManager.build_profile_snapshot merged selected_new_apps include_saved_apps
        include_saved_missing_apps required_items profile_name systemName).1.items.filter
          (fun it => it.priority = "required")).length
      + ((ProfileManager.build_profile_snapshot merged selected_new_apps include_saved_apps
        include_saved_missing_apps required_items profile_name systemName).1.items.filter
          (fun it => ¬ it.priority = "required")).length =
      (ProfileManager.build_profile_snapshot merged selected_new_apps include_saved_apps
        include_saved_missing_apps required_items profile_name systemName).1.items.length
    generalize (ProfileManager.build_profile_snapshot merged selected_new_apps include_saved_apps
        include_saved_missing_apps required_items profile_name systemName).1.items = items
    induction items with
    | nil => rfl
    | cons a t ih =>
      by_cases h : a.priority = "required" <;>
        simp [List.filter_cons, h, ← ih] <;> omega
  · show (((ProfileManager.tallyByCategory
        (ProfileManager.build_profile_snapshot merged selected_new_apps include_saved_apps
          include_saved_missing_apps required_items profile_name systemName).1.items)).map
            Prod.snd).sum = _
    rw [ProfileManager.tally_sum]
    rfl

/-- C6 counterexample: the claim fails without a catalog descriptor.  For
detected MCP `foo` with a matching configuration block but no descriptor,
the built item's install type is not `mcp` (it is the generic manual item)
and its verification type is `manual`, not `mcp_connect`. -/
theorem C6_mcp_override_counterexample :
    ((ProfileManager.merge_detected_context
        { mcps := ["foo"],
          mcpConfigs := [("foo", ProfileManager.JValue.obj
            [("url", .str "http://localhost:3000")])] } "Linux").mcps.map
      (fun i => (ProfileManager.jGetIsStr i.install "type" "mcp",
        i.verification.type_))) = [(false, "manual")] := by
  decide

/-- C6 (amended: requires a catalog descriptor for the name; without one
the builder emits a generic manual item, as the counterexample shows): for
every detected item of category `mcp` whose lower-cased name has a matching
MCP configuration block and a catalog descriptor, the built `ProfileItem`
carries the redacted forced-`mcp` install dict holding that configuration
block, and verification type `mcp_connect`. -/
theorem C6_mcp_override (inp : ProfileManager.DetectInputs) (systemName : String) :
    ∀ name ∈ inp.mcps, ∀ conf : ProfileManager.JValue,
      inp.mcpConfigs.lookup (ProfileManager.pyLower name) = some conf →
      ∀ rec : ProfileManager.Rec,
        inp.recommendations.lookup (ProfileManager.pyLower name) = some rec →
        ∃ item ∈ (ProfileManager.merge_detected_context inp systemName).mcps,
          item.name = name
          ∧ item.install = ProfileManager.redact_value
              (.obj [("type", .str "mcp"), ("command", .str ""),
                ("config_snippet", conf)])
          ∧ item.verification =
              { type_ := "mcp_connect", test_command := some ("Use MCP: " ++ name) } := by
  intro name hn conf hconf rec hrec
  refine ⟨ProfileManager.build_item_from_recommendation name "mcp"
      (ProfileManager.normalize_os (some inp.osRaw) systemName) (some rec) (some conf),
    ?_, rfl, ?_, ?_⟩
  · show _ ∈ (ProfileManager.pySorted inp.mcps).map _
    refine List.mem_map.mpr ⟨name, (ProfileManager.mem_pySorted _ _).mpr hn, ?_⟩
    dsimp only
    rw [hrec, hconf]
  · exact (ProfileManager.build_item_mcp_fields name _ "" rec conf).1
  · exact (ProfileManager.build_item_mcp_fields name _ "" rec conf).2

/-- C6 witness: detected MCP `Foo` with a configuration block and a
descriptor under key `foo` yields an item in the merged catalog with the
forced redacted `mcp` install and `mcp_connect` verification. -/
theorem C6_mcp_override_witness :
    ∃ item ∈ (ProfileManager.merge_detected_context
      { mcps := ["Foo"],
        mcpConfigs := [("foo", ProfileManager.JValue.obj
          [("url", .str "http://localhost:3000")])],
        recommendations := [("foo", {})] } "Linux").mcps,
      item.name = "Foo"
      ∧ item.install = ProfileManager.redact_value
          (.obj [("type", .str "mcp"), ("command", .str ""),
            ("config_snippet", ProfileManager.JValue.obj
              [("url", .str "http://localhost:3000")])])
      ∧ item.verification =
          { type_ := "mcp_connect", test_command := some ("Use MCP: Foo") } :=
  C6_mcp_override
    { mcps := ["Foo"],
      mcpConfigs := [("foo", ProfileManager.JValue.obj
        [("url", .str "http://localhost:3000")])],
      recommendations := [("foo", {})] } "Linux"
    "Foo" (by decide) _ rfl _ rfl

/-- C5 (corrected): with duplicate detected names in one category the claimed
id-uniqueness fails — two identical mcp names yield a snapshot with two items
sharing the id "mcp:foo". -/
theorem C5_snapshot_invariants_counterexample :
    ¬ (((ProfileManager.build_profile_snapshot
        (ProfileManager.merge_detected_context { mcps := ["foo", "foo"] } "Linux")
        [] true [] [] "" "Linux").1.items.map (fun i => i.id)).Nodup) := by
  decide

/-- C5 (amended): for every detection input, every item of the built
snapshot has a non-empty `os_support` and a priority that is either
"required" or "optional"; and whenever the detected names are slug-distinct
within each category, the snapshot's item ids are pairwise distinct. -/
theorem C5_snapshot_invariants (inp : ProfileManager.DetectInputs) (systemName : String)
    (sna : List String) (inc : Bool) (sim req : List String) (pn sys2 : String) :
    (∀ it ∈ (ProfileManager.build_profile_snapshot
        (ProfileManager.merge_detected_context inp systemName)
        sna inc sim req pn sys2).1.items,
        it.os_support ≠ [] ∧ (it.priority = "required" ∨ it.priority = "optional"))
    ∧ ((inp.mcps.map ProfileManager.slugify).Nodup →
       (inp.cli_tools.map ProfileManager.slugify).Nodup →
       (inp.skills.map (fun s => ProfileManager.slugify s.name)).Nodup →
       (inp.applications.map ProfileManager.slugify).Nodup →
       (inp.plugins.map ProfileManager.slugify).Nodup →
       (inp.model_preferences.map (fun mp => ProfileManager.slugify mp.1)).Nodup →
       ((ProfileManager.build_profile_snapshot
          (ProfileManager.merge_detected_context inp systemName)
          sna inc sim req pn sys2).1.items.map (fun i => i.id)).Nodup) := by
  constructor
  case right =>
    intro h1 h2 h3 h4 h5 h6
    rw [ProfileManager.snapshot_items_eq]
    apply List.Nodup.of_map (fun s : String => (ProfileManager.idCat s, ProfileManager.idSlug s))
    rw [List.map_map]
    exact ProfileManager.snapshot_ids_nodup_core inp systemName _ (req.map ProfileManager.pyLower)
      h1 h2 h3 h4 h5 h6
  case left =>
    intro it hit
    rw [ProfileManager.snapshot_items_eq] at hit
    obtain ⟨x, hx, heq⟩ := ProfileManager.override_append_decomp
      (req.map ProfileManager.pyLower) _ _ _ _ _ _ _ _ it hit
    subst heq
    constructor
    · rw [ProfileManager.snapshotOverride_os]
      obtain ⟨m1, m2, m3, m4, m5, m6, m7⟩ := ProfileManager.merged_os_ne_nil inp systemName
      rcases hx with h | h | h | h | h | h | h
      exacts [m1 x h, m2 x h, m3 x h, m4 x h, m5 x h, m6 x h, m7 x h]
    · exact ProfileManager.snapshotOverride_priority _ x

/-- C5 witness: the amended invariants at a concrete slug-distinct input,
the uniqueness conjunct's hypotheses discharged there. -/
theorem C5_snapshot_invariants_witness :
    (∀ it ∈ (ProfileManager.build_profile_snapshot
        (ProfileManager.merge_detected_context { mcps := ["alpha", "beta"] } "Linux")
        [] true [] [] "" "Linux").1.items,
        it.os_support ≠ [] ∧ (it.priority = "required" ∨ it.priority = "optional"))
    ∧ ((ProfileManager.build_profile_snapshot
        (ProfileManager.merge_detected_context { mcps := ["alpha", "beta"] } "Linux")
        [] true [] [] "" "Linux").1.items.map (fun i => i.id)).Nodup :=
  ⟨(C5_snapshot_invariants { mcps := ["alpha", "beta"] } "Linux" [] true [] [] "" "Linux").1,
   (C5_snapshot_invariants { mcps := ["alpha", "beta"] } "Linux" [] true [] [] "" "Linux").2
     (by decide) (by decide) (by decide) (by decide) (by decide) (by decide)⟩

/-- C9 counterexample: the manual-only success record carries no resolved
command and no captured stdout/stderr, so the claim's "every outcome is a
structured record carrying the resolved commands and captured stdout/stderr"
fails on the manual path. -/
theorem C9_install_dispatch_counterexample :
    (ProfileManager.install_item { name := "zoom", category := "application" }
      "/plugin" (fun _ => none) (fun _ => "") (fun _ => (0, "", "")) false).success = true
    ∧ (ProfileManager.install_item { name := "zoom", category := "application" }
      "/plugin" (fun _ => none) (fun _ => "") (fun _ => (0, "", "")) false).manual = true
    ∧ (ProfileManager.install_item { name := "zoom", category := "application" }
      "/plugin" (fun _ => none) (fun _ => "") (fun _ => (0, "", "")) false).install_command = none
    ∧ (ProfileManager.install_item { name := "zoom", category := "application" }
      "/plugin" (fun _ => none) (fun _ => "") (fun _ => (0, "", "")) false).stdout = none
    ∧ (ProfileManager.install_item { name := "zoom", category := "application" }
      "/plugin" (fun _ => none) (fun _ => "") (fun _ => (0, "", "")) false).stderr = none := by
  refine ⟨rfl, rfl, rfl, rfl, rfl⟩

/-- C9 (amended): when the item is manual-only the dispatcher returns the
manual success record without consulting the subprocess oracle; otherwise,
once the command stage resolves an installer command, a non-zero installer
exit yields the failure record with verification "not_run" (the verifier is
not run), and installer exit 0 runs the verifier and reports
installed = true with success = (verifier exit == 0 or verification type ==
"manual"); the subprocess-path records carry the resolved commands and the
captured stdout/stderr, but the manual-only record does not. -/
theorem C9_install_dispatch (item : ProfileManager.InstallItemInput)
    (root : String) (jloads : String → Option ProfileManager.JValue)
    (jdumps : ProfileManager.JValue → String)
    (runCmd : List String → Int × String × String) :
    (ProfileManager.installManualOnly item = true →
      ∀ runCmd2 : List String → Int × String × String,
        ProfileManager.install_item item root jloads jdumps runCmd false =
          ProfileManager.install_item item root jloads jdumps runCmd2 false
        ∧ (ProfileManager.install_item item root jloads jdumps runCmd false).success = true
        ∧ (ProfileManager.install_item item root jloads jdumps runCmd false).manual = true
        ∧ (ProfileManager.install_item item root jloads jdumps runCmd false).installed = false
        ∧ (ProfileManager.install_item item root jloads jdumps runCmd false).verification = "manual"
        ∧ (ProfileManager.install_item item root jloads jdumps runCmd false).install_command = none
        ∧ (ProfileManager.install_item item root jloads jdumps runCmd false).stdout = none
        ∧ (ProfileManager.install_item item root jloads jdumps runCmd false).stderr = none)
    ∧ (∀ cmd, ProfileManager.installManualOnly item = false →
        ProfileManager.buildInstallCommand item root jloads jdumps = Except.ok cmd →
        ((runCmd cmd).1 ≠ 0 →
          ProfileManager.install_item item root jloads jdumps runCmd false =
            { success := false
              name := ProfileManager.pyStrip item.name
              category := ProfileManager.pyLower (ProfileManager.pyStrip item.category)
              manual := false
              installed := false
              verification := "not_run"
              install_command := some cmd
              stdout := some (runCmd cmd).2.1
              stderr := some (runCmd cmd).2.2 })
        ∧ ((runCmd cmd).1 = 0 →
          (ProfileManager.install_item item root jloads jdumps runCmd false).installed = true
          ∧ (ProfileManager.install_item item root jloads jdumps runCmd false).success =
              ((runCmd (ProfileManager.installVerifyCommand item root)).1 == 0
                || (ProfileManager.parse_verify_arg item).1 == "manual")
          ∧ (ProfileManager.install_item item root jloads jdumps runCmd false).install_command
              = some cmd
          ∧ (ProfileManager.install_item item root jloads jdumps runCmd false).verify_command
              = some (ProfileManager.installVerifyCommand item root)
          ∧ (ProfileManager.install_item item root jloads jdumps runCmd false).stdout
              = some (runCmd cmd).2.1
          ∧ (ProfileManager.install_item item root jloads jdumps runCmd false).stderr
              = some (runCmd cmd).2.2)) := by
  constructor
  · intro h runCmd2
    simp only [ProfileManager.install_item]
    rw [if_pos h, if_pos h]
    exact ⟨rfl, rfl, rfl, rfl, rfl, rfl, rfl, rfl⟩
  · intro cmd hman hcmd
    have hman' : ¬ ProfileManager.installManualOnly item = true := by
      simp [hman]
    constructor
    · intro hne
      simp only [ProfileManager.install_item]
      rw [if_neg hman', hcmd]
      dsimp only
      rw [if_neg (show ¬ (false = true) by decide), if_pos hne]
    · intro h0
      simp only [ProfileManager.install_item]
      rw [if_neg hman', hcmd]
      dsimp only
      rw [if_neg (show ¬ (false = true) by decide), if_neg (not_not_intro h0)]
      exact ⟨rfl, rfl, rfl, rfl, rfl, rfl⟩

/-- C9 witness: the exit-0 path of the dispatcher at a concrete cli-tool
item and an oracle that reports exit 0. -/
theorem C9_install_dispatch_witness :
    (ProfileManager.install_item
      { name := "foo"
        category := "cli-tool"
        install := some { type_ := some "shell", command := some "npm install -g foo" }
        verification := some
          { type_ := some "command_exists"
            test_command := some "foo --version" } }
      "/plugin" (fun _ => none) (fun _ => "") (fun _ => (0, "ok", "")) false).installed = true
    ∧ (ProfileManager.install_item
      { name := "foo"
        category := "cli-tool"
        install := some { type_ := some "shell", command := some "npm install -g foo" }
        verification := some
          { type_ := some "command_exists"
            test_command := some "foo --version" } }
      "/plugin" (fun _ => none) (fun _ => "") (fun _ => (0, "ok", "")) false).install_command =
      some ["/plugin/scripts/install-cli.sh", "foo", "npm install -g foo", "shell"] := by
  have h := ((C9_install_dispatch
      { name := "foo"
        category := "cli-tool"
        install := some { type_ := some "shell", command := some "npm install -g foo" }
        verification := some
          { type_ := some "command_exists"
            test_command := some "foo --version" } }
      "/plugin" (fun _ => none) (fun _ => "") (fun _ => (0, "ok", ""))).2
    ["/plugin/scripts/install-cli.sh", "foo", "npm install -g foo", "shell"]
    (by decide) (by rfl)).2 (by decide)
  exact ⟨h.1, h.2.2.1⟩
